import Mathlib

/-!
PrimeTrade backend: request pipeline, access control and task handlers.

A shallow embedding of the Express backend under `backend/`:

* `utils/responseHandler.js`  : `successResponse`, `errorResponse`
* `middleware/auth.js`        : `protect`, `authorize`
* `middleware/validator.js`   : `validate`, the three rule sets
* `middleware/errorHandler.js` : `errorHandler`
* `controllers/taskController.js` : the six task handlers
* `routes/taskRoutes.js`, `routes/authRoutes.js` : the stage list of every route,
  and the matching of a request path against the routes in declaration order

A middleware or handler is a function from the request and the database to a
`Step`: it calls `next()`, sends a response, or forwards a fault (`next(err)`,
or a throw that Express forwards). Libraries (jsonwebtoken, the ObjectId cast,
validator.js format checks) are fields of `Env`.
-/

set_option autoImplicit false

namespace PrimeTrade

/-! ## JavaScript string operations used by the source -/

/-- The method `String.prototype.startsWith` of JavaScript. -/
def jsStartsWith (s pre : String) : Bool :=
  pre.data.isPrefixOf s.data

/-- Worker of `jsSplit`: `cur` holds the current piece, reversed. -/
def jsSplitAux (sep : Char) : List Char → List Char → List String
  | [], cur => [String.mk cur.reverse]
  | c :: cs, cur =>
    if c = sep then String.mk cur.reverse :: jsSplitAux sep cs []
    else jsSplitAux sep cs (c :: cur)

/-- The call `s.split(sep)` of JavaScript for a one-character separator:
every occurrence of `sep` ends a piece, empty pieces are kept. -/
def jsSplit (s : String) (sep : Char) : List String :=
  jsSplitAux sep s.data []

/-- The method `Array.prototype.join` on an array of strings. -/
def jsJoin : List String → String → String
  | [], _ => ""
  | [x], _ => x
  | x :: y :: rest, sep => x ++ sep ++ jsJoin (y :: rest) sep

/-- The white space class of a JavaScript regular expression (the characters
that `trim` of validator.js strips), by code point. -/
def jsIsSpace (c : Char) : Bool :=
  let n := c.toNat
  (9 ≤ n && n ≤ 13) || n == 32 || n == 160 || n == 5760 ||
  (8192 ≤ n && n ≤ 8202) || n == 8232 || n == 8233 || n == 8239 ||
  n == 8287 || n == 12288 || n == 65279

/-- The sanitizer `trim()` of validator.js with no character set: white space
is removed from both ends. -/
def jsTrim (s : String) : String :=
  String.mk ((s.data.dropWhile jsIsSpace).reverse.dropWhile jsIsSpace).reverse

/-! ## Data model -/

/-- Modelled from the spec: the User document (`models/User.js` is absent).
Section 3 of the spec lists identifier, name, email, hashed password, role
and active flag. `password` is `none` once `select("-password")` removed it. -/
structure User where
  _id : String
  name : String
  email : String
  password : Option String
  role : String
  isActive : Bool
  deriving DecidableEq, Repr

/-- Modelled from the spec: the Task document (`models/Task.js` is absent).
Section 3 of the spec lists identifier, title, description, status, priority,
optional due date and the owning-user reference `user`. -/
structure Task where
  _id : String
  title : String
  description : String
  status : String
  priority : String
  dueDate : Option String
  user : String
  deriving DecidableEq, Repr

/-- The two collections of the database. -/
structure DB where
  users : List User
  tasks : List Task
  deriving DecidableEq, Repr

/-- A thrown error object, with the properties `errorHandler` reads. `name`,
`message` and `code` are read from the error itself, `statusCode` from the
copy `{ ...err }`, so it is the own property of the error; a status code is
an integer. -/
structure Fault where
  name : Option String
  message : Option String
  code : Option Nat
  statusCode : Option Nat
  keyValue : Option (List (String × String))
  errors : Option (List (String × Option String))
  deriving DecidableEq, Repr

deriving instance DecidableEq for Except

/-- A fault that carries a name and a message only. -/
def Fault.named (name message : String) : Fault :=
  ⟨some name, some message, none, none, none, none⟩

/-- The `CastError` Mongoose throws when a value is no ObjectId. -/
def castError (path : String) : Fault :=
  Fault.named "CastError" ("Cast to ObjectId failed at path " ++ path)

/-- The `TypeError` of reading a property of `null` or `undefined`. -/
def typeError (property : String) : Fault :=
  Fault.named "TypeError" ("Cannot read properties of null (reading '" ++ property ++ "')")

/-- A Mongoose `ValidationError` with its per-field messages. -/
def validationError (errs : List (String × String)) : Fault :=
  ⟨some "ValidationError", some "Task validation failed", none, none, none,
    some (errs.map fun e => (e.1, some e.2))⟩

/-- A JSON value that is not a top-level array, as `express.json()` delivers
it. A number is held as the text `String(value)` gives; an object, or an array
nested in an array, is held as the text its `toString()` gives (for a plain
object `[object Object]`). -/
inductive JScalar where
  | null
  | bool (b : Bool)
  | num (text : String)
  | str (s : String)
  | object (text : String)
  deriving DecidableEq, Repr

/-- A member of `req.body`: one value, or an array of values. -/
inductive JVal where
  | leaf (v : JScalar)
  | arr (xs : List JScalar)
  deriving DecidableEq, Repr

/-- A JSON string as a body member. -/
abbrev jstr (s : String) : JVal := .leaf (.str s)

/-- The function `toString` of express-validator on one value: `null` is the
empty string, every other value its string form. -/
def JScalar.toStr : JScalar → String
  | .null => ""
  | .bool b => if b then "true" else "false"
  | .num text => text
  | .str s => s
  | .object text => text

/-- The JSON object `req.body`. The first entry of a key is its value. -/
abbrev Body := List (String × JVal)

/-- Property read `obj[key]`; `none` is `undefined`. -/
def Body.get (b : Body) (key : String) : Option JVal :=
  (b.find? fun kv => kv.1 == key).map Prod.snd

/-- Property assignment `obj[key] = value`. -/
def Body.set : Body → String → JVal → Body
  | [], key, value => [(key, value)]
  | (k, v) :: rest, key, value =>
    if k == key then (k, value) :: rest else (k, v) :: Body.set rest key value

/-- The types of the paths of the Task schema. -/
inductive SchemaType where
  | string
  | objectId
  | date
  deriving DecidableEq, Repr

/-- A value of `req.query` as the query-string parser produces it: a string,
an array (a repeated parameter) or an object (`status[$ne]=x`). -/
inductive QVal where
  | str (s : String)
  | arr (xs : List String)
  | obj (kvs : List (String × String))
  deriving DecidableEq, Repr

/-- JavaScript truthiness of a query value: only the empty string is falsy. -/
def QVal.truthy : QVal → Bool
  | .str s => s != ""
  | .arr _ => true
  | .obj _ => true

/-- The parsed query string `req.query`. -/
abbrev Query := List (String × QVal)

/-- Property read on `req.query`. -/
def Query.get (q : Query) (key : String) : Option QVal :=
  (q.find? fun kv => kv.1 == key).map Prod.snd

/-- The parts of an Express request the backend reads or writes. -/
structure Request where
  authorization : Option String
  paramId : String
  query : Query
  body : Body
  user : Option User
  validationErrors : List String
  deriving DecidableEq, Repr

/-- The owner sub-document that `populate("user", "name email")` inserts. -/
structure Owner where
  _id : String
  name : String
  email : String
  deriving DecidableEq, Repr

/-- A task after `populate`: `owner` is `none` (JavaScript `null`) when the
referenced user is not in the users collection. -/
structure PopulatedTask where
  task : Task
  owner : Option Owner
  deriving DecidableEq, Repr

/-- The `data` member of a success envelope. -/
inductive Data where
  | task (t : Option Task)
  | populated (t : PopulatedTask)
  | list (count : Nat) (tasks : List PopulatedTask)
  | stats (totalTasks : Nat) (groups : List (String × Nat))
  | other (text : String)
  deriving DecidableEq, Repr

/-- The HTTP response: status code and JSON envelope. -/
structure Response where
  status : Nat
  success : Bool
  message : Option String
  error : Option String
  data : Option Data
  deriving DecidableEq, Repr

/-! ## utils/responseHandler.js -/

/-- The function `successResponse(res, message, data = null, statusCode = 200)`. -/
def successResponse (message : String) (data : Option Data) (statusCode : Nat) : Response :=
  ⟨statusCode, true, some message, none, data⟩

/-- The function `errorResponse(res, message, statusCode)`. -/
def errorResponse (message : String) (statusCode : Nat) : Response :=
  ⟨statusCode, false, none, some message, none⟩

/-! ## Steps of the pipeline -/

/-- What one middleware or handler does. -/
inductive Step where
  | next (req : Request) (db : DB)
  | respond (res : Response) (db : DB)
  | fail (err : Fault) (db : DB)
  deriving DecidableEq, Repr

/-- The database a step leaves behind. -/
def Step.db : Step → DB
  | .next _ d => d
  | .respond _ d => d
  | .fail _ d => d

/-- The response a step sent, if it sent one. -/
def Step.response? : Step → Option Response
  | .respond r _ => some r
  | _ => none

/-- Whether the step called `next()` without an error. -/
def Step.calledNext : Step → Bool
  | .next _ _ => true
  | _ => false

/-- The handlers named by the route files. -/
inductive Handler where
  | getTasks | getTask | createTask | updateTask | deleteTask | getTaskStats
  | register | login | getMe | updateProfile
  deriving DecidableEq, Repr

/-- Library and environment functions the backend calls. -/
structure Env where
  /-- The call `jwt.verify(token, secret)`: the `id` of the decoded payload, or the thrown fault. -/
  jwtVerify : String → Except Fault String
  /-- Whether Mongoose can cast the string to an ObjectId. -/
  isObjectId : String → Bool
  /-- The identifier storage assigns to a new document. -/
  newObjectId : DB → String
  /-- The validator `isISO8601` of validator.js. -/
  isISO8601 : String → Bool
  /-- The validator `isEmail` of validator.js. -/
  isEmail : String → Bool
  /-- The sanitizer `normalizeEmail` of validator.js. -/
  normalizeEmail : String → String
  /-- The cast of a string to a Date by Mongoose; `none` is a cast failure. -/
  castDate : String → Option String
  /-- How storage reads a field constraint that is not a string (an array or
  an operator object): the predicate it denotes, or the fault it throws. -/
  opQuery : QVal → Except Fault (String → Bool)
  /-- The order `sort(sortBy)` denotes, or the fault it throws. -/
  sortOrder : QVal → Except Fault (Task → Task → Bool)
  /-- The handlers of `controllers/authController.js`, which is absent. -/
  authController : Handler → Request → DB → Step
  /-- The method `String.prototype.toUpperCase` of JavaScript. -/
  toUpperCase : String → String
  /-- The cast by Mongoose of a body value that is not a JSON string to a
  schema type; `none` is a cast failure. -/
  castOther : SchemaType → JVal → Option String
  /-- Whether Express and Node send a response with this status code without
  its body (1xx, 204, 304, and 205 in Express from 4.18 on). -/
  forbidsBody : Nat → Bool

/-! ## middleware/auth.js -/

/-- Lines 6 to 13 of `protect`: the token is the second piece of the header
split at spaces, when the header starts with `Bearer`. -/
def extractToken (authorization : Option String) : Option String :=
  match authorization with
  | none => none
  | some h =>
    if h != "" && jsStartsWith h "Bearer" then (jsSplit h ' ')[1]? else none

/-- The query `User.findById(id)`: a cast failure throws, otherwise the first
user with this identifier or `null`. -/
def User.findById (env : Env) (db : DB) (id : String) : Except Fault (Option User) :=
  if env.isObjectId id then .ok (db.users.find? fun u => u._id == id)
  else .error (castError "_id")

/-- The projection `select("-password")`. -/
def User.selectNoPassword (u : User) : User :=
  { u with password := none }

/-- The reply of `protect` when the request is not authenticated. -/
def notAuthorized : Response :=
  errorResponse "Not authorized to access this route" 401

/-- The middleware `protect`. -/
def protect (env : Env) (req : Request) (db : DB) : Step :=
  match extractToken req.authorization with
  | none => .respond notAuthorized db
  | some token =>
    if token == "" then .respond notAuthorized db
    else
      match env.jwtVerify token with
      | .error _ => .respond notAuthorized db
      | .ok id =>
        match User.findById env db id with
        | .error _ => .respond notAuthorized db
        | .ok found =>
          let req' := { req with user := found.map User.selectNoPassword }
          match req'.user with
          | none => .respond (errorResponse "User not found" 404) db
          | some u =>
            if !u.isActive then .respond (errorResponse "User account is deactivated" 403) db
            else .next req' db

/-- The middleware `authorize(...roles)`. Reading `req.user.role` with no
attached user throws. -/
def authorize (roles : List String) (req : Request) (db : DB) : Step :=
  match req.user with
  | none => .fail (typeError "role") db
  | some u =>
    if !roles.contains u.role then
      .respond (errorResponse
        ("User role '" ++ u.role ++ "' is not authorized to access this route") 403) db
    else .next req db

/-! ## middleware/validator.js -/

/-- The validators of validator.js that the rule sets use. -/
inductive Validator where
  | notEmpty
  | isLength (min : Nat) (max : Option Nat)
  | isEmail
  | isIn (allowed : List String)
  | isISO8601
  deriving DecidableEq, Repr

/-- One link of a validation chain: a sanitizer, or a validator with the
message given by `withMessage`. -/
inductive ChainItem where
  | trim
  | normalizeEmail
  | check (v : Validator) (message : String)
  deriving DecidableEq, Repr

/-- A chain `body(field)...`; `optional` is set by `.optional()`. -/
structure Chain where
  field : String
  optional : Bool
  items : List ChainItem
  deriving DecidableEq, Repr

/-- The variation selectors U+FE0E and U+FE0F, which `isLength` does not count. -/
def isVariationSelector (c : Char) : Bool :=
  c.toNat == 65038 || c.toNat == 65039

/-- The length `isLength` of validator.js measures: the number of code points
(a surrogate pair counts once) less the number of variation selectors. -/
def validatorLength (s : String) : Nat :=
  s.length - (s.data.filter isVariationSelector).length

/-- Whether the validator accepts the string. -/
def Validator.holds (env : Env) : Validator → String → Bool
  | .notEmpty, s => s.length != 0
  | .isLength min max, s =>
    min ≤ validatorLength s &&
      (match max with | none => true | some m => validatorLength s ≤ m)
  | .isEmail, s => env.isEmail s
  | .isIn allowed, s => allowed.contains s
  | .isISO8601, s => env.isISO8601 s

/-- The strings a validator of express-validator is run on: the string form
of the value, of each element when the value is an array (none for an empty
array), and the empty string when the field is missing. -/
def fieldStrings : Option JVal → List String
  | none => [""]
  | some (.leaf x) => [x.toStr]
  | some (.arr xs) => xs.map JScalar.toStr

/-- The value a sanitizer of express-validator leaves: the sanitized string
form of the value, or the array of the sanitized string forms of its elements. -/
def sanitized (f : String → String) : Option JVal → JVal
  | none => .leaf (.str (f ""))
  | some (.leaf x) => .leaf (.str (f x.toStr))
  | some (.arr xs) => .arr (xs.map fun x => .str (f x.toStr))

/-- Runs the links of a chain in order on the current value: a sanitizer
replaces the value and writes it back to the body, a validator adds its
message once for every string it rejects and the chain goes on. -/
def runItems (env : Env) (field : String) :
    List ChainItem → Option JVal → Body → List String → Body × List String
  | [], _, body, errs => (body, errs)
  | .trim :: rest, v, body, errs =>
    runItems env field rest (some (sanitized jsTrim v)) (body.set field (sanitized jsTrim v)) errs
  | .normalizeEmail :: rest, v, body, errs =>
    runItems env field rest (some (sanitized env.normalizeEmail v))
      (body.set field (sanitized env.normalizeEmail v)) errs
  | .check val message :: rest, v, body, errs =>
    runItems env field rest v body
      (errs ++ ((fieldStrings v).filter fun s => !val.holds env s).map fun _ => message)

/-- Runs one chain on the body. An optional chain is skipped when the field
is missing. -/
def runChain (env : Env) (c : Chain) (body : Body) : Body × List String :=
  match body.get c.field with
  | none => if c.optional then (body, []) else runItems env c.field c.items none body []
  | some v => runItems env c.field c.items (some v) body []

/-- Runs a rule set: each chain in order, the messages added to those the
request already holds. -/
def runChains (env : Env) : List Chain → Request → Request
  | [], req => req
  | c :: rest, req =>
    let r := runChain env c req.body
    runChains env rest
      { req with body := r.1, validationErrors := req.validationErrors ++ r.2 }

/-- The middleware `validate`; `req.validationErrors` is `validationResult(req).array()`
mapped to the messages. -/
def validate (req : Request) (db : DB) : Step :=
  if !req.validationErrors.isEmpty then
    .respond (errorResponse (jsJoin req.validationErrors ", ") 400) db
  else .next req db

/-- The rule set `registerValidation`. -/
def registerValidation : List Chain :=
  [ ⟨"name", false,
      [.trim, .check .notEmpty "Name is required",
       .check (.isLength 2 (some 50)) "Name must be between 2 and 50 characters"]⟩,
    ⟨"email", false,
      [.trim, .check .notEmpty "Email is required",
       .check .isEmail "Please provide a valid email", .normalizeEmail]⟩,
    ⟨"password", false,
      [.check .notEmpty "Password is required",
       .check (.isLength 6 none) "Password must be at least 6 characters"]⟩ ]

/-- The rule set `loginValidation`. -/
def loginValidation : List Chain :=
  [ ⟨"email", false,
      [.trim, .check .notEmpty "Email is required",
       .check .isEmail "Please provide a valid email", .normalizeEmail]⟩,
    ⟨"password", false, [.check .notEmpty "Password is required"]⟩ ]

/-- The rule set `taskValidation`. -/
def taskValidation : List Chain :=
  [ ⟨"title", false,
      [.trim, .check .notEmpty "Title is required",
       .check (.isLength 3 (some 100)) "Title must be between 3 and 100 characters"]⟩,
    ⟨"description", false,
      [.trim, .check .notEmpty "Description is required",
       .check (.isLength 5 (some 500)) "Description must be between 5 and 500 characters"]⟩,
    ⟨"status", true,
      [.check (.isIn ["pending", "in-progress", "completed"])
        "Status must be pending, in-progress, or completed"]⟩,
    ⟨"priority", true,
      [.check (.isIn ["low", "medium", "high"]) "Priority must be low, medium, or high"]⟩,
    ⟨"dueDate", true, [.check .isISO8601 "Please provide a valid date"]⟩ ]

/-! ## Task storage -/

/-- Modelled from the spec: the values of the `status` enumeration of the
Task schema (`models/Task.js` is absent). -/
def statusEnum : List String := ["pending", "in-progress", "completed"]

/-- Modelled from the spec: the values of the `priority` enumeration of the
Task schema (`models/Task.js` is absent). -/
def priorityEnum : List String := ["low", "medium", "high"]

/-- Modelled from the spec: the cast of a body value to the type of a path of
the Task schema (`models/Task.js` is absent); `none` is a cast failure. A JSON
string casts to itself as a string, to the ObjectId it spells or to the date
it spells; how any other value casts is left to storage. -/
def castValue (env : Env) : SchemaType → JVal → Option String
  | .string, .leaf (.str s) => some s
  | .objectId, .leaf (.str s) => if env.isObjectId s then some s else none
  | .date, .leaf (.str s) => env.castDate s
  | ty, v => env.castOther ty v

/-- The cast value of a path of the document; `none` when the document does
not set the path or the cast fails. -/
def castGet (env : Env) (ty : SchemaType) (doc : Body) (path : String) : Option String :=
  (doc.get path).bind (castValue env ty)

/-- Modelled from the spec: the enumeration validator of one schema path
(`models/Task.js` is absent), run on the cast value. A path the document does
not set passes. -/
def enumErrors (env : Env) (doc : Body) (path : String) (allowed : List String) :
    List (String × String) :=
  match castGet env .string doc path with
  | none => []
  | some v =>
    if allowed.contains v then []
    else [(path, v ++ " is not a valid enum value for path " ++ path)]

/-- Modelled from the spec: the required validator of one schema path
(`models/Task.js` is absent). -/
def requiredErrors (doc : Body) (path : String) : List (String × String) :=
  match doc.get path with
  | none => [(path, "Path " ++ path ++ " is required")]
  | some _ => []

/-- The cast failure of one path of the document, if it sets the path. -/
def pathCastErrors (env : Env) (ty : SchemaType) (doc : Body) (path : String) :
    List (String × String) :=
  match doc.get path with
  | none => []
  | some v => if (castValue env ty v).isSome then [] else [(path, "Cast failed for path " ++ path)]

/-- Modelled from the spec: the casts of the Task schema (`models/Task.js` is
absent): title, description, status and priority are strings, `dueDate` is a
date and `user` an ObjectId reference. -/
def castErrors (env : Env) (doc : Body) : List (String × String) :=
  pathCastErrors env .string doc "title" ++ pathCastErrors env .string doc "description" ++
  pathCastErrors env .string doc "status" ++ pathCastErrors env .string doc "priority" ++
  pathCastErrors env .date doc "dueDate" ++ pathCastErrors env .objectId doc "user"

/-- The query `Task.findById(id)`: a cast failure throws, otherwise the first
task with this identifier or `null`. -/
def Task.findById (env : Env) (db : DB) (id : String) : Except Fault (Option Task) :=
  if env.isObjectId id then .ok (db.tasks.find? fun t => t._id == id)
  else .error (castError "_id")

/-- Modelled from the spec: `Task.create(doc)` under the Task schema
(`models/Task.js` is absent). Title, description and owner are required,
status and priority are enumerations with defaults `pending` and `medium`,
the due date is optional; storage assigns the identifier. Returns the new
task and the database that holds it. -/
def Task.create (env : Env) (db : DB) (doc : Body) : Except Fault (Task × DB) :=
  let errs := requiredErrors doc "title" ++ requiredErrors doc "description" ++
    enumErrors env doc "status" statusEnum ++ enumErrors env doc "priority" priorityEnum ++
    requiredErrors doc "user" ++ castErrors env doc
  if !errs.isEmpty then .error (validationError errs)
  else
    let task : Task :=
      { _id := env.newObjectId db
        title := (castGet env .string doc "title").getD ""
        description := (castGet env .string doc "description").getD ""
        status := (castGet env .string doc "status").getD "pending"
        priority := (castGet env .string doc "priority").getD "medium"
        dueDate := castGet env .date doc "dueDate"
        user := (castGet env .objectId doc "user").getD "" }
    .ok (task, { db with tasks := db.tasks ++ [task] })

/-- The fields of a task that an update document sets. -/
def applyUpdate (env : Env) (t : Task) (doc : Body) : Task :=
  { t with
    title := (castGet env .string doc "title").getD t.title
    description := (castGet env .string doc "description").getD t.description
    status := (castGet env .string doc "status").getD t.status
    priority := (castGet env .string doc "priority").getD t.priority
    dueDate := match doc.get "dueDate" with
      | none => t.dueDate
      | some v => castValue env .date v
    user := (castGet env .objectId doc "user").getD t.user }

/-- Replaces the first task with the identifier by its update. -/
def updateFirst (env : Env) (id : String) (doc : Body) : List Task → List Task
  | [] => []
  | t :: rest =>
    if t._id == id then applyUpdate env t doc :: rest
    else t :: updateFirst env id doc rest

/-- Modelled from the spec: `Task.findByIdAndUpdate(id, doc, {new: true,
runValidators: true})` under the Task schema (`models/Task.js` is absent): the
document is cast, the enumeration validators run on the paths it sets, and
the updated task is returned (`null` when no task has the identifier). -/
def Task.findByIdAndUpdate (env : Env) (db : DB) (id : String) (doc : Body) :
    Except Fault (Option Task × DB) :=
  if !env.isObjectId id then .error (castError "_id")
  else
    let errs := castErrors env doc
    if !errs.isEmpty then .error (castError (errs.map Prod.fst).headI)
    else
      let verrs := enumErrors env doc "status" statusEnum ++
        enumErrors env doc "priority" priorityEnum
      if !verrs.isEmpty then .error (validationError verrs)
      else
        match db.tasks.find? fun t => t._id == id with
        | none => .ok (none, db)
        | some t => .ok (some (applyUpdate env t doc), { db with tasks := updateFirst env id doc db.tasks })

/-- The call `task.deleteOne()`: the first task with the identifier is removed. -/
def Task.deleteOne (db : DB) (t : Task) : DB :=
  { db with tasks := db.tasks.eraseP fun x => x._id == t._id }

/-- The filter object `query` that `getTasks` hands to `Task.find`. -/
structure TaskFilter where
  user : Option String
  status : Option QVal
  priority : Option QVal
  deriving DecidableEq, Repr

/-- The predicate a field constraint denotes: none is no constraint, a string
is equality, anything else is read by storage. -/
def fieldPredicate (env : Env) : Option QVal → Except Fault (String → Bool)
  | none => .ok fun _ => true
  | some (.str s) => .ok fun v => v == s
  | some q => env.opQuery q

/-- The query `Task.find(query)`: the tasks that satisfy every constraint. -/
def Task.find (env : Env) (db : DB) (f : TaskFilter) : Except Fault (List Task) :=
  match fieldPredicate env f.status, fieldPredicate env f.priority with
  | .ok ps, .ok pp =>
    .ok (db.tasks.filter fun t =>
      (match f.user with
        | none => true
        | some id => t.user == id) && ps t.status && pp t.priority)
  | .error e, _ => .error e
  | _, .error e => .error e

/-- The call `populate("user", "name email")` on one task. -/
def populateUser (db : DB) (t : Task) : PopulatedTask :=
  ⟨t, (db.users.find? fun u => u._id == t.user).map fun u => ⟨u._id, u.name, u.email⟩⟩

/-! ## controllers/taskController.js -/

/-- Lines 13 to 25 of `getTasks`: the filter built from the caller and the
query string. Only `status` and `priority` are read from the query string. -/
def getTasksQuery (u : User) (q : Query) : TaskFilter :=
  { user := if u.role != "admin" then some u._id else none
    status := (q.get "status").bind fun v => if v.truthy then some v else none
    priority := (q.get "priority").bind fun v => if v.truthy then some v else none }

/-- The handler `getTasks`. -/
def getTasks (env : Env) (req : Request) (db : DB) : Step :=
  match req.user with
  | none => .fail (typeError "role") db
  | some u =>
    let sortBy := (req.query.get "sortBy").getD (.str "-createdAt")
    match Task.find env db (getTasksQuery u req.query) with
    | .error e => .fail e db
    | .ok found =>
      match env.sortOrder sortBy with
      | .error e => .fail e db
      | .ok le =>
        let tasks := (found.insertionSort fun a b => le a b = true).map (populateUser db)
        .respond (successResponse "Tasks retrieved successfully"
          (some (.list tasks.length tasks)) 200) db

/-- The handler `getTask`. The owner is read from the populated task, so a
task whose owner reference finds no user throws at `task.user._id`. -/
def getTask (env : Env) (req : Request) (db : DB) : Step :=
  match Task.findById env db req.paramId with
  | .error e => .fail e db
  | .ok none => .respond (errorResponse "Task not found" 404) db
  | .ok (some t) =>
    let task := populateUser db t
    match task.owner with
    | none => .fail (typeError "_id") db
    | some owner =>
      match req.user with
      | none => .fail (typeError "id") db
      | some u =>
        if owner._id != u._id && u.role != "admin" then
          .respond (errorResponse "Not authorized to access this task" 403) db
        else
          .respond (successResponse "Task retrieved successfully" (some (.populated task)) 200) db

/-- Line 73 of `createTask`: `req.body.user = req.user.id`. -/
def createTaskDoc (u : User) (body : Body) : Body :=
  body.set "user" (jstr u._id)

/-- The handler `createTask`. -/
def createTask (env : Env) (req : Request) (db : DB) : Step :=
  match req.user with
  | none => .fail (typeError "id") db
  | some u =>
    match Task.create env db (createTaskDoc u req.body) with
    | .error e => .fail e db
    | .ok (task, db') =>
      .respond (successResponse "Task created successfully" (some (.task (some task))) 201) db'

/-- The handler `updateTask`. -/
def updateTask (env : Env) (req : Request) (db : DB) : Step :=
  match Task.findById env db req.paramId with
  | .error e => .fail e db
  | .ok none => .respond (errorResponse "Task not found" 404) db
  | .ok (some t) =>
    match req.user with
    | none => .fail (typeError "id") db
    | some u =>
      if t.user != u._id && u.role != "admin" then
        .respond (errorResponse "Not authorized to update this task" 403) db
      else
        match Task.findByIdAndUpdate env db req.paramId req.body with
        | .error e => .fail e db
        | .ok (task, db') =>
          .respond (successResponse "Task updated successfully" (some (.task task)) 200) db'

/-- The handler `deleteTask`. -/
def deleteTask (env : Env) (req : Request) (db : DB) : Step :=
  match Task.findById env db req.paramId with
  | .error e => .fail e db
  | .ok none => .respond (errorResponse "Task not found" 404) db
  | .ok (some t) =>
    match req.user with
    | none => .fail (typeError "id") db
    | some u =>
      if t.user != u._id && u.role != "admin" then
        .respond (errorResponse "Not authorized to delete this task" 403) db
      else
        .respond (successResponse "Task deleted successfully" none 200) (Task.deleteOne db t)

/-- The handler `getTaskStats`: the number of tasks of each status, and the
number of all tasks. -/
def getTaskStats (_env : Env) (_req : Request) (db : DB) : Step :=
  let statuses := (db.tasks.map fun t => t.status).eraseDups
  let stats := statuses.map fun s => (s, db.tasks.countP fun t => t.status == s)
  .respond (successResponse "Task statistics retrieved successfully"
    (some (.stats db.tasks.length stats)) 200) db

/-! ## Routes and the pipeline -/

/-- Runs a handler; those of the absent auth controller come from `Env`. -/
def Handler.run (env : Env) : Handler → Request → DB → Step
  | .getTasks => PrimeTrade.getTasks env
  | .getTask => PrimeTrade.getTask env
  | .createTask => PrimeTrade.createTask env
  | .updateTask => PrimeTrade.updateTask env
  | .deleteTask => PrimeTrade.deleteTask env
  | .getTaskStats => PrimeTrade.getTaskStats env
  | h => env.authController h

/-- One argument of a `router.METHOD(path, ...)` call. -/
inductive Stage where
  | protect
  | authorize (roles : List String)
  | rules (chains : List Chain)
  | validate
  | handler (h : Handler)
  deriving DecidableEq, Repr

/-- Runs one stage. -/
def Stage.run (env : Env) : Stage → Request → DB → Step
  | .protect, req, db => PrimeTrade.protect env req db
  | .authorize roles, req, db => PrimeTrade.authorize roles req db
  | .rules chains, req, db => .next (runChains env chains req) db
  | .validate, req, db => PrimeTrade.validate req db
  | .handler h, req, db => h.run env req db

/-- How a pipeline ended. -/
inductive Final where
  | responded (res : Response)
  | forwarded (err : Fault)
  | unanswered
  deriving DecidableEq, Repr

/-- The result of running a pipeline: how it ended, the database it left and
the stages that ran, in order. -/
structure Run where
  final : Final
  db : DB
  ran : List Stage
  deriving DecidableEq, Repr

/-- Express runs the stages of a route in order; a stage that sends a
response or forwards a fault ends the pipeline. -/
def runStages (env : Env) : List Stage → Request → DB → Run
  | [], _, db => ⟨.unanswered, db, []⟩
  | s :: rest, req, db =>
    match s.run env req db with
    | .next req' db' =>
      let r := runStages env rest req' db'
      { r with ran := s :: r.ran }
    | .respond res db' => ⟨.responded res, db', [s]⟩
    | .fail err db' => ⟨.forwarded err, db', [s]⟩

/-- HTTP methods of the routes. -/
inductive Method where
  | GET | POST | PUT | DELETE
  deriving DecidableEq, Repr

/-- A route: method, path below the mount point, stages in declaration order. -/
structure Route where
  method : Method
  path : String
  stages : List Stage
  deriving DecidableEq, Repr

/-- The routes of `routes/taskRoutes.js`, mounted at `/api/v1/tasks`, in
declaration order. -/
def taskRoutes : List Route :=
  [ ⟨.GET, "/", [.protect, .handler .getTasks]⟩,
    ⟨.GET, "/stats", [.protect, .authorize ["admin"], .handler .getTaskStats]⟩,
    ⟨.GET, "/:id", [.protect, .handler .getTask]⟩,
    ⟨.POST, "/", [.protect, .rules taskValidation, .validate, .handler .createTask]⟩,
    ⟨.PUT, "/:id", [.protect, .handler .updateTask]⟩,
    ⟨.DELETE, "/:id", [.protect, .handler .deleteTask]⟩ ]

/-- The routes of `routes/authRoutes.js`, mounted at `/api/v1/auth`, in
declaration order. -/
def authRoutes : List Route :=
  [ ⟨.POST, "/register", [.rules registerValidation, .validate, .handler .register]⟩,
    ⟨.POST, "/login", [.rules loginValidation, .validate, .handler .login]⟩,
    ⟨.GET, "/me", [.protect, .handler .getMe]⟩,
    ⟨.PUT, "/profile", [.protect, .handler .updateProfile]⟩ ]

/-- The protected routes: every task route, `GET /auth/me` and
`PUT /auth/profile`. -/
def protectedRoutes : List Route :=
  taskRoutes ++ authRoutes.filter fun r => r.path == "/me" || r.path == "/profile"

/-! ## middleware/errorHandler.js -/

/-- The expression `field.charAt(0).toUpperCase() + field.slice(1)`. -/
def capitalizeFirst (env : Env) (field : String) : String :=
  env.toUpperCase (String.mk (field.data.take 1)) ++ String.mk (field.data.drop 1)

/-- The operand `error.message || "Server Error"`: an absent or empty message
is falsy. -/
def messageOrDefault (message : Option String) : String :=
  match message with
  | none => "Server Error"
  | some m => if m != "" then m else "Server Error"

/-- The operand `error.statusCode || 500`: an absent status code or 0 is falsy. -/
def statusOrDefault (statusCode : Option Nat) : Nat :=
  match statusCode with
  | none => 500
  | some c => if c != 0 then c else 500

/-- The call `errorResponse(res, message, statusCode)` with a status code that
is not a constant of the source: Node refuses to send a status code outside
100 to 999, so `res.status(statusCode).json(...)` throws a RangeError; and for
a status code that forbids a body only the status goes out, without the
envelope (`error` is `none`). -/
def sendError (env : Env) (message : String) (statusCode : Nat) : Except Fault Response :=
  if 100 ≤ statusCode && statusCode ≤ 999 then
    if env.forbidsBody statusCode then .ok ⟨statusCode, false, none, none, none⟩
    else .ok (errorResponse message statusCode)
  else .error (Fault.named "RangeError" "Invalid status code")

/-- The error handler `errorHandler(err, req, res, next)`: the response it
sends, or the fault it throws itself. `keyValue` and `errors` list their
entries in the order of `Object.keys`; `Object.keys` and `Object.values`
throw on `undefined`, `charAt` cannot be read from the missing first key, and
`join` writes a missing message as the empty string. -/
def errorHandler (env : Env) (err : Fault) : Except Fault Response :=
  if err.name == some "CastError" then .ok (errorResponse "Resource not found" 404)
  else if err.code == some 11000 then
    match err.keyValue with
    | none => .error (Fault.named "TypeError" "Cannot convert undefined or null to object")
    | some [] =>
      .error (Fault.named "TypeError" "Cannot read properties of undefined (reading 'charAt')")
    | some ((field, _) :: _) =>
      .ok (errorResponse (capitalizeFirst env field ++ " already exists") 400)
  else if err.name == some "ValidationError" then
    match err.errors with
    | none => .error (Fault.named "TypeError" "Cannot convert undefined or null to object")
    | some errs => .ok (errorResponse (jsJoin (errs.map fun e => e.2.getD "") ", ") 400)
  else if err.name == some "JsonWebTokenError" then .ok (errorResponse "Invalid token" 401)
  else if err.name == some "TokenExpiredError" then .ok (errorResponse "Token expired" 401)
  else sendError env (messageOrDefault err.message) (statusOrDefault err.statusCode)

/-! ## Route matching -/

/-- A path without its one optional trailing slash. -/
def stripTrailingSlash (path : String) : String :=
  if path.length > 1 && path.data.getLast? == some '/' then String.mk path.data.dropLast
  else path

/-- ASCII lower-casing of a path. -/
def lowerPath (path : String) : String :=
  String.mk (path.data.map Char.toLower)

/-- Whether the route path matches the request path below the mount point,
and the value of `req.params.id` when it does (empty for a path with no
parameter). Express matches without regard to case and to one trailing slash;
`/:id` matches one non-empty segment. -/
def matchPath (pattern path : String) : Option String :=
  let p := stripTrailingSlash path
  if pattern == "/:id" then
    match p.data with
    | '/' :: seg => if !seg.isEmpty && !seg.contains '/' then some (String.mk seg) else none
    | _ => none
  else if lowerPath pattern == lowerPath p then some "" else none

/-- The request and database a stage list hands on when every stage called
`next()`; `none` when a stage answered or forwarded a fault. -/
def passThrough (env : Env) : List Stage → Request → DB → Option (Request × DB)
  | [], req, db => some (req, db)
  | s :: rest, req, db =>
    match s.run env req db with
    | .next req' db' => passThrough env rest req' db'
    | _ => none

/-- The router: the routes are tried in declaration order, the first whose
method and path match runs its stages, and a later route is tried only when
every stage of the matched one called `next()`. -/
def dispatch (env : Env) : List Route → Method → String → Request → DB → Run
  | [], _, _, _, db => ⟨.unanswered, db, []⟩
  | r :: rest, m, path, req, db =>
    match (if r.method = m then matchPath r.path path else none) with
    | none => dispatch env rest m path req db
    | some id =>
      match passThrough env r.stages { req with paramId := id } db with
      | some (req2, db2) =>
        let run := dispatch env rest m path req2 db2
        { run with ran := r.stages ++ run.ran }
      | none => runStages env r.stages { req with paramId := id } db

/-! ## A concrete environment and database -/

/-- Lower-case hexadecimal digit. -/
def isHexDigit (c : Char) : Bool :=
  c.isDigit || (97 ≤ c.toNat && c.toNat ≤ 102)

/-- A concrete environment: a token `jwt.<id>` verifies to `<id>`, an
ObjectId is 24 hexadecimal digits, `isISO8601` accepts what starts with a
digit, a date casts when it starts with a digit and is no ISO week date (as
the `Date` of JavaScript reads none), and of the values that are not strings
only numbers and booleans cast, to their string form; a response with status
1xx, 204, 205 or 304 goes out without body. -/
def demoEnv : Env where
  jwtVerify := fun t =>
    if jsStartsWith t "jwt." then .ok (String.mk (t.data.drop 4))
    else .error (Fault.named "JsonWebTokenError" "jwt malformed")
  isObjectId := fun s => s.length == 24 && s.data.all isHexDigit
  newObjectId := fun _ => "64a0000000000000000000ff"
  isISO8601 := fun s => s.data.head?.any Char.isDigit
  isEmail := fun s => s.data.contains '@'
  normalizeEmail := fun s => s
  castDate := fun s =>
    if s.data.head?.any Char.isDigit && !s.data.contains 'W' then some s else none
  opQuery := fun _ => .error (Fault.named "CastError" "Cast to string failed")
  sortOrder := fun _ => .ok fun a b => a._id.length ≤ b._id.length
  authController := fun _ _ db => .respond (successResponse "ok" none 200) db
  toUpperCase := fun s => String.mk (s.data.map Char.toUpper)
  castOther := fun ty v =>
    match ty, v with
    | .string, .leaf (.num text) => some text
    | .string, .leaf (.bool b) => some (if b then "true" else "false")
    | _, _ => none
  forbidsBody := fun c => c < 200 || c == 204 || c == 205 || c == 304

/-- Identifier of the user Ann. -/
def annId : String := "64a000000000000000000001"

/-- Identifier of the user Bob. -/
def bobId : String := "64a000000000000000000002"

/-- Identifier of the administrator. -/
def rootId : String := "64a000000000000000000003"

/-- Identifier of the deactivated user Cy. -/
def cyId : String := "64a000000000000000000004"

/-- A well-formed identifier that no stored user has. -/
def ghostId : String := "64a00000000000000000dead"

/-- Identifier of the stored task. -/
def taskId : String := "64a0000000000000000000a1"

/-- The user Ann, as stored. -/
def ann : User := ⟨annId, "Ann", "a@x.com", some "hash1", "user", true⟩

/-- The user Bob, as stored. -/
def bob : User := ⟨bobId, "Bob", "b@x.com", some "hash2", "user", true⟩

/-- The administrator, as stored. -/
def root : User := ⟨rootId, "Root", "r@x.com", some "hash3", "admin", true⟩

/-- The deactivated user Cy, as stored. -/
def cy : User := ⟨cyId, "Cy", "c@x.com", some "hash4", "user", false⟩

/-- The task of Ann. -/
def annTask : Task := ⟨taskId, "Write report", "Quarterly numbers", "pending", "medium", none, annId⟩

/-- A database with four users and one task, owned by Ann. -/
def demoDb : DB := ⟨[ann, bob, root, cy], [annTask]⟩

/-- The database after Ann set the owner reference of her task to an
identifier that no user has. -/
def ghostDb : DB := ⟨[ann, bob, root, cy], [{ annTask with user := ghostId }]⟩

/-- A request with the given Authorization header, path identifier and body. -/
def mkRequest (authorization : Option String) (paramId : String) (body : Body) : Request :=
  ⟨authorization, paramId, [], body, none, []⟩

/-- A request past `protect`: the user is attached. -/
def asUser (u : User) (paramId : String) (body : Body) : Request :=
  ⟨some ("Bearer jwt." ++ u._id), paramId, [], body, some u.selectNoPassword, []⟩

/-- The duplicate-key fault of registering an email that is already stored. -/
def duplicateEmail : Fault :=
  ⟨some "MongoServerError", some "E11000 duplicate key error collection: users",
    some 11000, none, some [("email", "a@x.com")], none⟩

/-- A duplicate-key fault without `keyValue`, as a server that does not
report the conflicting key sends it. -/
def duplicateNoKeyValue : Fault :=
  ⟨some "MongoServerError", some "E11000 duplicate key error collection: users",
    some 11000, none, none, none⟩

/-! ## Authentication middleware -/

/-- The reply of `protect` to an unauthenticated request is the 401 error envelope. -/
theorem notAuthorized_eq :
    notAuthorized = ⟨401, false, none, some "Not authorized to access this route", none⟩ := rfl

/-- With no usable token, or a token that does not verify, `protect` answers 401. -/
theorem protect_rejects (env : Env) (req : Request) (db : DB)
    (h : extractToken req.authorization = none ∨ extractToken req.authorization = some "" ∨
      ∃ tok e, extractToken req.authorization = some tok ∧ env.jwtVerify tok = .error e) :
    protect env req db = .respond notAuthorized db := by
  unfold protect
  rcases h with h | h | ⟨tok, e, h, hv⟩
  · simp [h]
  · simp [h]
  · simp only [h, hv]
    split_ifs <;> rfl

/-- A missing header yields no token. -/
theorem extractToken_none : extractToken none = none := rfl

/-- A header that does not start with `Bearer` yields no token. -/
theorem extractToken_no_bearer (h : String) (hb : jsStartsWith h "Bearer" = false) :
    extractToken (some h) = none := by
  simp [extractToken, hb]

/-- A header that starts with `Bearer` yields the second piece of its split at spaces. -/
theorem extractToken_bearer (h : String) (hb : jsStartsWith h "Bearer" = true) :
    extractToken (some h) = (jsSplit h ' ')[1]? := by
  have hne : h ≠ "" := by
    rintro rfl
    revert hb
    decide
  simp [extractToken, hb, hne]

/-- C1: on every protected route (each task route, GET /auth/me, PUT /auth/profile)
a request with no Authorization header, with a header that yields no token, or
with a token that jwt.verify rejects is answered by protect with status 401 and
the error envelope; protect does not call next, it is the only stage that
runs, and the database is unchanged. -/
theorem C1_protected_routes_reject_without_valid_token
    (env : Env) (r : Route) (req : Request) (db : DB)
    (hr : r ∈ protectedRoutes)
    (htok : req.authorization = none ∨ extractToken req.authorization = none ∨
      extractToken req.authorization = some "" ∨
      ∃ tok e, extractToken req.authorization = some tok ∧ env.jwtVerify tok = .error e) :
    protect env req db =
        .respond ⟨401, false, none, some "Not authorized to access this route", none⟩ db ∧
      (protect env req db).calledNext = false ∧
      runStages env r.stages req db =
        ⟨.responded ⟨401, false, none, some "Not authorized to access this route", none⟩,
          db, [.protect]⟩ := by
  have hp : protect env req db = .respond notAuthorized db := by
    apply protect_rejects
    rcases htok with h | h | h | h
    · left; rw [h]; rfl
    · left; exact h
    · right; left; exact h
    · right; right; exact h
  have hrun : ∀ rest, runStages env (.protect :: rest) req db =
      ⟨.responded notAuthorized, db, [.protect]⟩ := by
    intro rest
    simp [runStages, Stage.run, hp]
  refine ⟨by rw [hp, notAuthorized_eq], by rw [hp]; rfl, ?_⟩
  rw [← notAuthorized_eq]
  simp only [protectedRoutes, taskRoutes, authRoutes, List.filter, List.mem_append,
    List.mem_cons] at hr
  rcases hr with (h | h | h | h | h | h | h) | h
  any_goals (subst h; exact hrun _)
  all_goals first
    | exact absurd h (List.not_mem_nil _)
    | skip
  revert h
  simp only [show ("/register" == "/me" || "/register" == "/profile") = false by decide,
    show ("/login" == "/me" || "/login" == "/profile") = false by decide,
    show ("/me" == "/me" || "/me" == "/profile") = true by decide,
    show ("/profile" == "/me" || "/profile" == "/profile") = true by decide,
    List.mem_cons]
  rintro (h | h | h)
  · subst h; exact hrun _
  · subst h; exact hrun _
  · exact absurd h (List.not_mem_nil _)

/-- Witness of C1: DELETE /tasks/:id with a token that does not verify. -/
theorem C1_witness :
    runStages demoEnv [.protect, .handler .deleteTask]
        (mkRequest (some "Bearer forged") taskId []) demoDb =
      ⟨.responded ⟨401, false, none, some "Not authorized to access this route", none⟩,
        demoDb, [.protect]⟩ :=
  (C1_protected_routes_reject_without_valid_token demoEnv
    ⟨.DELETE, "/:id", [.protect, .handler .deleteTask]⟩
    (mkRequest (some "Bearer forged") taskId []) demoDb (by decide)
    (Or.inr (Or.inr (Or.inr ⟨"forged", Fault.named "JsonWebTokenError" "jwt malformed",
      by decide, by decide⟩)))).2.2

/-- C2, as the spec states it, fails: the header `Bearerx jwt.<id of Ann>` does
not start with `Bearer ` (the word followed by a space), yet protect extracts
the token after the space, sends no response and calls next. -/
theorem C2_counterexample :
    jsStartsWith ("Bearerx jwt." ++ annId) "Bearer " = false ∧
      extractToken (some ("Bearerx jwt." ++ annId)) = some ("jwt." ++ annId) ∧
      (protect demoEnv (mkRequest (some ("Bearerx jwt." ++ annId)) "" []) demoDb).calledNext
        = true ∧
      (protect demoEnv (mkRequest (some ("Bearerx jwt." ++ annId)) "" []) demoDb).response?
        = none := by
  decide

/-- C2, amended: protect reads a token only from an Authorization header that
starts with `Bearer` (no space required), and the token is the second piece of
the header split at spaces. A request whose header is absent, does not start
with `Bearer`, or has no second piece or an empty one, is answered 401 and next
is not called, whatever else the header contains. -/
theorem C2_protect_requires_bearer_and_second_piece
    (env : Env) (req : Request) (db : DB)
    (hh : req.authorization = none ∨
      ∃ h, req.authorization = some h ∧
        (jsStartsWith h "Bearer" = false ∨ (jsSplit h ' ')[1]? = none ∨
          (jsSplit h ' ')[1]? = some "")) :
    protect env req db =
        .respond ⟨401, false, none, some "Not authorized to access this route", none⟩ db ∧
      (protect env req db).calledNext = false := by
  have hp : protect env req db = .respond notAuthorized db := by
    apply protect_rejects
    rcases hh with h | ⟨h, hreq, hb | hs | hs⟩
    · left; rw [h]; rfl
    · left; rw [hreq]; exact extractToken_no_bearer h hb
    · cases hb : jsStartsWith h "Bearer"
      · left; rw [hreq]; exact extractToken_no_bearer h hb
      · left; rw [hreq, extractToken_bearer h hb]; exact hs
    · cases hb : jsStartsWith h "Bearer"
      · left; rw [hreq]; exact extractToken_no_bearer h hb
      · right; left; rw [hreq, extractToken_bearer h hb]; exact hs
  rw [hp]
  exact ⟨by rw [notAuthorized_eq], rfl⟩

/-- Witness of C2 (amended): the header `Token jwt.<id of Ann>` carries a token
that would verify, but does not start with `Bearer`. -/
theorem C2_witness :
    protect demoEnv (mkRequest (some ("Token jwt." ++ annId)) "" []) demoDb =
        .respond ⟨401, false, none, some "Not authorized to access this route", none⟩ demoDb ∧
      (protect demoEnv (mkRequest (some ("Token jwt." ++ annId)) "" []) demoDb).calledNext
        = false :=
  C2_protect_requires_bearer_and_second_piece demoEnv
    (mkRequest (some ("Token jwt." ++ annId)) "" []) demoDb
    (Or.inr ⟨"Token jwt." ++ annId, rfl, Or.inl (by decide)⟩)

/-- C3, as the spec states it, fails: the token `jwt.zz` verifies to the
identifier `zz`, which no stored user has, yet protect answers 401 and not 404
`User not found`: `zz` does not cast to an ObjectId, the lookup throws, and
the catch of protect answers every fault with 401. -/
theorem C3_counterexample :
    extractToken (some "Bearer jwt.zz") = some "jwt.zz" ∧
      demoEnv.jwtVerify "jwt.zz" = .ok "zz" ∧
      (∀ u ∈ demoDb.users, u._id ≠ "zz") ∧
      protect demoEnv (mkRequest (some "Bearer jwt.zz") "" []) demoDb =
        .respond ⟨401, false, none, some "Not authorized to access this route", none⟩ demoDb := by
  decide

/-- C3, amended: when the bearer token of a request verifies to the identifier
`id`, the user lookup alone decides. If `id` does not cast to an ObjectId the
lookup throws and protect answers 401; if it casts and no stored user has it,
protect answers 404 `User not found`; if the user found has isActive false,
protect answers 403; in these cases next is not called. If the user found is
active, protect sends no response, sets req.user to that user without the
password field and calls next once with no error. -/
theorem C3_protect_outcome_after_verification
    (env : Env) (req : Request) (db : DB) (tok id : String)
    (htok : extractToken req.authorization = some tok) (hne : tok ≠ "")
    (hver : env.jwtVerify tok = .ok id) :
    (env.isObjectId id = false →
        protect env req db = .respond
          ⟨401, false, none, some "Not authorized to access this route", none⟩ db) ∧
      (env.isObjectId id = true → (∀ u ∈ db.users, u._id ≠ id) →
        protect env req db = .respond ⟨404, false, none, some "User not found", none⟩ db) ∧
      (∀ u, env.isObjectId id = true → db.users.find? (fun x => x._id == id) = some u →
        u.isActive = false →
        protect env req db =
          .respond ⟨403, false, none, some "User account is deactivated", none⟩ db) ∧
      (∀ u, env.isObjectId id = true → db.users.find? (fun x => x._id == id) = some u →
        u.isActive = true →
        protect env req db = .next { req with user := some { u with password := none } } db ∧
        (protect env req db).response? = none) := by
  refine ⟨?_, ?_, ?_, ?_⟩
  · intro hid
    simp [protect, htok, hne, hver, User.findById, hid, notAuthorized, errorResponse]
  · intro hid hnone
    have hfind : db.users.find? (fun x => x._id == id) = none := by
      rw [List.find?_eq_none]
      intro u hu
      simpa using hnone u hu
    simp [protect, htok, hne, hver, User.findById, hid, hfind, errorResponse]
  · intro u hid hfind ha
    simp [protect, htok, hne, hver, User.findById, hid, hfind, ha, errorResponse,
      User.selectNoPassword]
  · intro u hid hfind ha
    simp [protect, htok, hne, hver, User.findById, hid, hfind, ha, User.selectNoPassword,
      Step.response?]

/-- Witness of C3 (amended): the four outcomes, for a token whose identifier
does not cast, of an unknown user, of the deactivated user Cy and of the
active user Ann. -/
theorem C3_witness :
    protect demoEnv (mkRequest (some "Bearer jwt.zz") "" []) demoDb =
        .respond ⟨401, false, none, some "Not authorized to access this route", none⟩
          demoDb ∧
      protect demoEnv (mkRequest (some ("Bearer jwt." ++ ghostId)) "" []) demoDb =
        .respond ⟨404, false, none, some "User not found", none⟩ demoDb ∧
      protect demoEnv (mkRequest (some ("Bearer jwt." ++ cyId)) "" []) demoDb =
        .respond ⟨403, false, none, some "User account is deactivated", none⟩ demoDb ∧
      protect demoEnv (mkRequest (some ("Bearer jwt." ++ annId)) "" []) demoDb =
        .next { mkRequest (some ("Bearer jwt." ++ annId)) "" [] with
          user := some { ann with password := none } } demoDb :=
  ⟨(C3_protect_outcome_after_verification demoEnv
      (mkRequest (some "Bearer jwt.zz") "" []) demoDb "jwt.zz" "zz"
      (by decide) (by decide) (by decide)).1 (by decide),
    (C3_protect_outcome_after_verification demoEnv
      (mkRequest (some ("Bearer jwt." ++ ghostId)) "" []) demoDb ("jwt." ++ ghostId) ghostId
      (by decide) (by decide) (by decide)).2.1 (by decide) (by decide),
    (C3_protect_outcome_after_verification demoEnv
      (mkRequest (some ("Bearer jwt." ++ cyId)) "" []) demoDb ("jwt." ++ cyId) cyId
      (by decide) (by decide) (by decide)).2.2.1 cy (by decide) (by decide) (by decide),
    ((C3_protect_outcome_after_verification demoEnv
      (mkRequest (some ("Bearer jwt." ++ annId)) "" []) demoDb ("jwt." ++ annId) annId
      (by decide) (by decide) (by decide)).2.2.2 ann (by decide) (by decide) (by decide)).1⟩

/-! ## Authorization middleware -/

/-- C4: for every allow-list and every request with an attached user,
authorize(...roles) answers 403 and does not call next exactly when the role of
req.user is not in the list; when it is in the list, authorize sends no
response and calls next once with the request unchanged. -/
theorem C4_authorize_iff_role_not_allowed
    (roles : List String) (req : Request) (db : DB) (u : User)
    (hu : req.user = some u) :
    (((authorize roles req db).response?.map fun r => r.status) = some 403 ∧
        (authorize roles req db).calledNext = false ↔ u.role ∉ roles) ∧
      (u.role ∉ roles → authorize roles req db = .respond ⟨403, false, none,
        some ("User role '" ++ u.role ++ "' is not authorized to access this route"), none⟩ db) ∧
      (u.role ∈ roles → authorize roles req db = .next req db ∧
        (authorize roles req db).response? = none) := by
  by_cases hmem : u.role ∈ roles
  · have h : authorize roles req db = .next req db := by
      simp [authorize, hu, hmem]
    simp [h, hmem, Step.response?, Step.calledNext]
  · have h : authorize roles req db = .respond ⟨403, false, none,
        some ("User role '" ++ u.role ++ "' is not authorized to access this route"), none⟩ db := by
      simp [authorize, hu, hmem, errorResponse]
    simp [h, hmem, Step.response?, Step.calledNext]

/-- Witness of C4: on the admin-only allow-list Bob is answered 403 and the
administrator passes. -/
theorem C4_witness :
    authorize ["admin"] (asUser bob "" []) demoDb = .respond ⟨403, false, none,
        some "User role 'user' is not authorized to access this route", none⟩ demoDb ∧
      authorize ["admin"] (asUser root "" []) demoDb = .next (asUser root "" []) demoDb :=
  ⟨(C4_authorize_iff_role_not_allowed ["admin"] (asUser bob "" []) demoDb
      bob.selectNoPassword rfl).2.1 (by decide),
    ((C4_authorize_iff_role_not_allowed ["admin"] (asUser root "" []) demoDb
      root.selectNoPassword rfl).2.2 (by decide)).1⟩

/-! ## Ownership policy of the single-task handlers -/

/-- The owner that `populate` inserts has the identifier the task refers to. -/
theorem populateUser_owner_id (db : DB) (t : Task) (o : Owner)
    (h : (populateUser db t).owner = some o) : o._id = t.user := by
  simp only [populateUser, Option.map_eq_some'] at h
  obtain ⟨u, hfind, rfl⟩ := h
  have := List.find?_some hfind
  simpa using this

/-- A caller who is neither the owner nor an administrator is answered 403 by
`updateTask` and `deleteTask`, and by `getTask` when the owner reference of
the task finds a user; the database is the one before the call. When the
owner reference finds no user, `getTask` forwards a TypeError instead. -/
theorem nonowner_denied (env : Env) (req : Request) (db : DB) (t : Task) (u : User)
    (hfind : Task.findById env db req.paramId = .ok (some t)) (hu : req.user = some u)
    (hown : t.user ≠ u._id) (hrole : u.role ≠ "admin") :
    updateTask env req db =
        .respond (errorResponse "Not authorized to update this task" 403) db ∧
      deleteTask env req db =
        .respond (errorResponse "Not authorized to delete this task" 403) db ∧
      (∀ o, (populateUser db t).owner = some o → getTask env req db =
        .respond (errorResponse "Not authorized to access this task" 403) db) ∧
      ((populateUser db t).owner = none → getTask env req db = .fail (typeError "_id") db) := by
  refine ⟨?_, ?_, ?_, ?_⟩
  · simp [updateTask, hfind, hu, hown, hrole]
  · simp [deleteTask, hfind, hu, hown, hrole]
  · intro o ho
    have hid := populateUser_owner_id db t o ho
    have hne : o._id ≠ u._id := by rw [hid]; exact hown
    simp [getTask, hfind, hu, ho, hne, hrole]
  · intro ho
    simp [getTask, hfind, ho]

/-- C5, at the failing input: Ann, owner of the stored task, sets its owner
reference to an identifier no user has (the update is accepted with 200 and
yields ghostDb). Bob is neither that owner nor an administrator, and
updateTask and deleteTask answer him 403 and leave the store as it is, but
getTask forwards a TypeError to the error handler and sends no 403. -/
theorem C5_getTask_forwards_TypeError_when_owner_unresolved :
    updateTask demoEnv (asUser ann taskId [("user", jstr ghostId)]) demoDb =
        .respond (successResponse "Task updated successfully"
          (some (.task (some { annTask with user := ghostId }))) 200) ghostDb ∧
      Task.findById demoEnv ghostDb taskId = .ok (some { annTask with user := ghostId }) ∧
      ghostId ≠ bob._id ∧ bob.role ≠ "admin" ∧
      getTask demoEnv (asUser bob taskId []) ghostDb = .fail (typeError "_id") ghostDb ∧
      (getTask demoEnv (asUser bob taskId []) ghostDb).response? = none ∧
      updateTask demoEnv (asUser bob taskId [("title", jstr "Mine")]) ghostDb =
        .respond ⟨403, false, none, some "Not authorized to update this task", none⟩ ghostDb ∧
      deleteTask demoEnv (asUser bob taskId []) ghostDb =
        .respond ⟨403, false, none, some "Not authorized to delete this task", none⟩ ghostDb := by
  decide

/-- C6, as the spec states it, fails: Ann owns the stored task, yet her update
that names an owner which is no ObjectId, and her update with a status outside
the enumeration, are not answered with success: the update casts the body and
runs the schema validators, and the CastError and the ValidationError are
forwarded to the error handler. -/
theorem C6_counterexample :
    Task.findById demoEnv demoDb taskId = .ok (some annTask) ∧ annTask.user = ann._id ∧
      updateTask demoEnv (asUser ann taskId [("user", jstr "nobody")]) demoDb =
        .fail (castError "user") demoDb ∧
      (updateTask demoEnv (asUser ann taskId [("user", jstr "nobody")]) demoDb).response?
        = none ∧
      updateTask demoEnv (asUser ann taskId [("status", jstr "bogus")]) demoDb =
        .fail (validationError
          [("status", "bogus is not a valid enum value for path status")]) demoDb ∧
      (updateTask demoEnv (asUser ann taskId [("status", jstr "bogus")]) demoDb).response?
        = none := by
  decide

/-- C6, amended: for every authenticated user and every existing task,
updateTask and deleteTask answer 403 exactly when the owner reference of the
task differs from the caller's id and the caller's role is not admin, and so
does getTask on a task whose owner reference finds a stored user. When the
rule grants access, deleteTask responds with success (200), getTask responds
with success (200) on a task whose owner reference finds a stored user, and
updateTask responds with success (200) when storage accepts the update and
forwards the storage fault, never a 403, when it does not. So none of the
three handlers answers 403 to an administrator or to the owner of the task. -/
theorem C6_ownership_rule_of_single_task_handlers
    (env : Env) (req : Request) (db : DB) (t : Task) (u : User)
    (hfind : Task.findById env db req.paramId = .ok (some t)) (hu : req.user = some u) :
    ((((updateTask env req db).response?.map fun r => r.status) = some 403) ↔
        ¬ (t.user = u._id ∨ u.role = "admin")) ∧
      (t.user = u._id ∨ u.role = "admin" →
        (∀ task db', Task.findByIdAndUpdate env db req.paramId req.body = .ok (task, db') →
          updateTask env req db = .respond
            ⟨200, true, some "Task updated successfully", none, some (.task task)⟩ db') ∧
        (∀ e, Task.findByIdAndUpdate env db req.paramId req.body = .error e →
          updateTask env req db = .fail e db)) ∧
      ((((deleteTask env req db).response?.map fun r => r.status) = some 403) ↔
        ¬ (t.user = u._id ∨ u.role = "admin")) ∧
      (t.user = u._id ∨ u.role = "admin" →
        deleteTask env req db = .respond
          ⟨200, true, some "Task deleted successfully", none, none⟩ (Task.deleteOne db t)) ∧
      (∀ o, (populateUser db t).owner = some o →
        ((((getTask env req db).response?.map fun r => r.status) = some 403) ↔
          ¬ (t.user = u._id ∨ u.role = "admin")) ∧
        (t.user = u._id ∨ u.role = "admin" →
          getTask env req db = .respond ⟨200, true, some "Task retrieved successfully", none,
            some (.populated (populateUser db t))⟩ db)) ∧
      (t.user = u._id ∨ u.role = "admin" →
        ((getTask env req db).response?.map fun r => r.status) ≠ some 403) := by
  have hnever : t.user = u._id ∨ u.role = "admin" →
      ((getTask env req db).response?.map fun r => r.status) ≠ some 403 := by
    intro hg
    have hcond : (t.user != u._id && u.role != "admin") = false := by
      rcases hg with h | h <;> simp [h]
    cases ho : (populateUser db t).owner with
    | none => simp [getTask, hfind, ho, Step.response?]
    | some o =>
      have hid := populateUser_owner_id db t o ho
      have hcond' : (o._id != u._id && u.role != "admin") = false := by
        rw [hid]; exact hcond
      simp [getTask, hfind, hu, ho, hcond', Step.response?, successResponse]
  have hmain :
      ((((updateTask env req db).response?.map fun r => r.status) = some 403) ↔
          ¬ (t.user = u._id ∨ u.role = "admin")) ∧
        (t.user = u._id ∨ u.role = "admin" →
          (∀ task db', Task.findByIdAndUpdate env db req.paramId req.body = .ok (task, db') →
            updateTask env req db = .respond
              ⟨200, true, some "Task updated successfully", none, some (.task task)⟩ db') ∧
          (∀ e, Task.findByIdAndUpdate env db req.paramId req.body = .error e →
            updateTask env req db = .fail e db)) ∧
        ((((deleteTask env req db).response?.map fun r => r.status) = some 403) ↔
          ¬ (t.user = u._id ∨ u.role = "admin")) ∧
        (t.user = u._id ∨ u.role = "admin" →
          deleteTask env req db = .respond
            ⟨200, true, some "Task deleted successfully", none, none⟩ (Task.deleteOne db t)) ∧
        (∀ o, (populateUser db t).owner = some o →
          ((((getTask env req db).response?.map fun r => r.status) = some 403) ↔
            ¬ (t.user = u._id ∨ u.role = "admin")) ∧
          (t.user = u._id ∨ u.role = "admin" →
            getTask env req db = .respond ⟨200, true, some "Task retrieved successfully", none,
              some (.populated (populateUser db t))⟩ db)) := by
    by_cases hg : t.user = u._id ∨ u.role = "admin"
    · have hcond : (t.user != u._id && u.role != "admin") = false := by
        rcases hg with h | h <;> simp [h]
      have hupd : updateTask env req db =
          match Task.findByIdAndUpdate env db req.paramId req.body with
          | .error e => .fail e db
          | .ok (task, db') => .respond
              (successResponse "Task updated successfully" (some (.task task)) 200) db' := by
        simp [updateTask, hfind, hu, hcond]
      have hdel : deleteTask env req db = .respond
          (successResponse "Task deleted successfully" none 200) (Task.deleteOne db t) := by
        simp [deleteTask, hfind, hu, hcond]
      refine ⟨?_, fun _ => ⟨?_, ?_⟩, ?_, fun _ => ?_, fun o ho => ?_⟩
      · rw [hupd]
        rcases hres : Task.findByIdAndUpdate env db req.paramId req.body with e | ⟨task, db'⟩
        · simp [hg, Step.response?]
        · simp [hg, Step.response?, successResponse]
      · intro task db' hres
        rw [hupd, hres]
        rfl
      · intro e hres
        rw [hupd, hres]
      · rw [hdel]
        simp [hg, Step.response?, successResponse]
      · rw [hdel]
        rfl
      · have hid := populateUser_owner_id db t o ho
        have hcond' : (o._id != u._id && u.role != "admin") = false := by
          rw [hid]; exact hcond
        have hget : getTask env req db = .respond (successResponse "Task retrieved successfully"
            (some (.populated (populateUser db t))) 200) db := by
          simp [getTask, hfind, hu, ho, hcond']
        refine ⟨?_, fun _ => ?_⟩
        · rw [hget]
          simp [hg, Step.response?, successResponse]
        · rw [hget]
          rfl
    · have hown : t.user ≠ u._id := fun h => hg (Or.inl h)
      have hrole : u.role ≠ "admin" := fun h => hg (Or.inr h)
      obtain ⟨hupd, hdel, hget, _⟩ := nonowner_denied env req db t u hfind hu hown hrole
      refine ⟨?_, fun h => absurd h hg, ?_, fun h => absurd h hg, fun o ho => ⟨?_, fun h => absurd h hg⟩⟩
      · rw [hupd]
        simp [hg, Step.response?, errorResponse]
      · rw [hdel]
        simp [hg, Step.response?, errorResponse]
      · rw [hget o ho]
        simp [hg, Step.response?, errorResponse]
  exact ⟨hmain.1, hmain.2.1, hmain.2.2.1, hmain.2.2.2.1, hmain.2.2.2.2, hnever⟩

/-- Witness of C6 (amended): on the task of Ann, Bob is answered 403 by
updateTask, the administrator deletes it, and Ann retitles it. -/
theorem C6_witness :
    (((updateTask demoEnv (asUser bob taskId [("title", jstr "Mine")]) demoDb).response?.map
        fun r => r.status) = some 403) ∧
      deleteTask demoEnv (asUser root taskId []) demoDb = .respond
        ⟨200, true, some "Task deleted successfully", none, none⟩
        (Task.deleteOne demoDb annTask) ∧
      updateTask demoEnv (asUser ann taskId [("title", jstr "Final report")]) demoDb = .respond
        ⟨200, true, some "Task updated successfully", none,
          some (.task (some { annTask with title := "Final report" }))⟩
        ⟨[ann, bob, root, cy], [{ annTask with title := "Final report" }]⟩ :=
  ⟨(C6_ownership_rule_of_single_task_handlers demoEnv (asUser bob taskId [("title", jstr "Mine")])
      demoDb annTask bob.selectNoPassword (by decide) rfl).1.mpr (by decide),
    (C6_ownership_rule_of_single_task_handlers demoEnv (asUser root taskId [])
      demoDb annTask root.selectNoPassword (by decide) rfl).2.2.2.1 (by decide),
    ((C6_ownership_rule_of_single_task_handlers demoEnv
      (asUser ann taskId [("title", jstr "Final report")])
      demoDb annTask ann.selectNoPassword (by decide) rfl).2.1 (by decide)).1 _ _ (by decide)⟩

/-! ## Listing and creating tasks -/

/-- Every task that `Task.find` returns under a filter with a user constraint
is a stored task of that user. -/
theorem Task.find_user (env : Env) (db : DB) (f : TaskFilter) (id : String)
    (found : List Task) (hf : f.user = some id) (h : Task.find env db f = .ok found) :
    ∀ t ∈ found, t.user = id ∧ t ∈ db.tasks := by
  unfold Task.find at h
  split at h
  · simp only [Except.ok.injEq] at h
    subst h
    intro t ht
    simp only [hf, List.mem_filter, Bool.and_eq_true, beq_iff_eq] at ht
    exact ⟨ht.2.1.1, ht.1⟩
  · simp at h
  · simp at h

/-- C7: for a caller who is not an administrator the filter that getTasks
hands to storage constrains `user` to the caller's id, whatever the query
string holds, so every task in the response is a stored task owned by the
caller; for an administrator the filter has no user constraint. The user
constraint does not depend on the query string. -/
theorem C7_getTasks_scoped_to_caller (env : Env) (req : Request) (db : DB) (u : User)
    (hu : req.user = some u) :
    (u.role ≠ "admin" →
        (getTasksQuery u req.query).user = some u._id ∧
        (∀ found, Task.find env db (getTasksQuery u req.query) = .ok found →
          ∀ t ∈ found, t.user = u._id) ∧
        (∀ res db', getTasks env req db = .respond res db' →
          ∃ ts, res.data = some (.list ts.length ts) ∧
            ∀ pt ∈ ts, pt.task.user = u._id ∧ pt.task ∈ db.tasks)) ∧
      (u.role = "admin" → (getTasksQuery u req.query).user = none) ∧
      (∀ q q' : Query, (getTasksQuery u q).user = (getTasksQuery u q').user) ∧
      (∀ found le, Task.find env db (getTasksQuery u req.query) = .ok found →
        env.sortOrder ((req.query.get "sortBy").getD (.str "-createdAt")) = .ok le →
        ∃ ts, getTasks env req db = .respond ⟨200, true, some "Tasks retrieved successfully",
          none, some (.list ts.length ts)⟩ db ∧ List.Perm (ts.map fun pt => pt.task) found) := by
  refine ⟨fun hrole => ?_, fun hrole => ?_, fun q q' => rfl, fun found le hfound hsort => ?_⟩
  · have hq : (getTasksQuery u req.query).user = some u._id := by
      simp [getTasksQuery, hrole]
    refine ⟨hq, fun found hfound t ht => (Task.find_user env db _ _ found hq hfound t ht).1, ?_⟩
    intro res db' hres
    unfold getTasks at hres
    simp only [hu] at hres
    split at hres
    · simp at hres
    · rename_i found hfound
      split at hres
      · simp at hres
      · rename_i le hsort
        simp only [Step.respond.injEq] at hres
        obtain ⟨rfl, -⟩ := hres
        refine ⟨_, rfl, ?_⟩
        intro pt hpt
        simp only [List.mem_map, List.mem_insertionSort] at hpt
        obtain ⟨t, ht, rfl⟩ := hpt
        exact Task.find_user env db _ _ found hq hfound t ht
  · simp [getTasksQuery, hrole]
  · refine ⟨(found.insertionSort fun a b => le a b = true).map (populateUser db), ?_, ?_⟩
    · simp [getTasks, hu, hfound, hsort, successResponse]
    · rw [List.map_map]
      have : ((fun pt : PopulatedTask => pt.task) ∘ populateUser db) = id := by
        funext t
        rfl
      rw [this, List.map_id]
      exact List.perm_insertionSort _ _

/-- Witness of C7: Ann lists her one task, whatever `user` parameter the query
string carries. -/
theorem C7_witness :
    (getTasksQuery ann.selectNoPassword [("user", .str bobId), ("status", .str "pending")]).user
      = some annId :=
  ((C7_getTasks_scoped_to_caller demoEnv
    { asUser ann "" [] with query := [("user", .str bobId), ("status", .str "pending")] }
    demoDb ann.selectNoPassword rfl).1 (by decide)).1

/-- Reading a key just assigned gives the assigned value. -/
theorem Body.get_set_self (b : Body) (key : String) (value : JVal) :
    (b.set key value).get key = some value := by
  induction b with
  | nil => simp [Body.set, Body.get]
  | cons kv rest ih =>
    obtain ⟨k, v⟩ := kv
    by_cases h : k = key
    · simp [Body.set, Body.get, h]
    · have ih' : Option.map Prod.snd
          (List.find? (fun kv => kv.1 == key) (Body.set rest key value)) = some value := ih
      simp [Body.set, Body.get, h, ih']

/-- Assigning a key does not change the value read at another key. -/
theorem Body.get_set_ne (b : Body) (key other : String) (value : JVal) (hne : other ≠ key) :
    (b.set key value).get other = b.get other := by
  induction b with
  | nil => simp [Body.set, Body.get, Ne.symm hne]
  | cons kv rest ih =>
    obtain ⟨k, v⟩ := kv
    have ih' : Option.map Prod.snd
        (List.find? (fun kv => kv.1 == other) (Body.set rest key value)) =
        Option.map Prod.snd (List.find? (fun kv => kv.1 == other) rest) := ih
    by_cases h : k = key
    · subst h
      simp [Body.set, Body.get, Ne.symm hne]
    · by_cases h2 : k = other
      · subst h2
        simp [Body.set, Body.get, h]
      · simp [Body.set, Body.get, h, h2, ih']

/-- C8: for every caller and every request body, also one that supplies its
own `user` field, the document createTask hands to Task.create has `user`
equal to the caller's id; createTask answers with what Task.create does with
that document, and a response of createTask has status 201 and carries the
stored task, whose owner is the caller. -/
theorem C8_createTask_owner_is_caller (env : Env) (req : Request) (db : DB) (u : User)
    (hu : req.user = some u) :
    (createTaskDoc u req.body).get "user" = some (jstr u._id) ∧
      (∀ e, Task.create env db (createTaskDoc u req.body) = .error e →
        createTask env req db = .fail e db) ∧
      (∀ task db', Task.create env db (createTaskDoc u req.body) = .ok (task, db') →
        createTask env req db = .respond
          ⟨201, true, some "Task created successfully", none, some (.task (some task))⟩ db' ∧
        task.user = u._id ∧ db'.tasks = db.tasks ++ [task]) ∧
      (∀ res db', createTask env req db = .respond res db' → res.status = 201 ∧
        ∃ task, res.data = some (.task (some task)) ∧ task.user = u._id ∧
          db'.tasks = db.tasks ++ [task]) := by
  have hdoc : (createTaskDoc u req.body).get "user" = some (jstr u._id) :=
    Body.get_set_self req.body "user" (jstr u._id)
  have hok : ∀ task db', Task.create env db (createTaskDoc u req.body) = .ok (task, db') →
      task.user = u._id ∧ db'.tasks = db.tasks ++ [task] := by
    intro task db' h
    unfold Task.create at h
    dsimp only at h
    split at h
    · simp at h
    · rename_i hempty
      simp only [Except.ok.injEq, Prod.mk.injEq] at h
      obtain ⟨rfl, rfl⟩ := h
      have hcast : env.isObjectId u._id = true := by
        by_contra hc
        apply hempty
        simp [castErrors, pathCastErrors, hdoc, castValue, hc]
      simp [castGet, hdoc, castValue, hcast]
  refine ⟨hdoc, ?_, ?_, ?_⟩
  · intro e h
    simp [createTask, hu, h]
  · intro task db' h
    refine ⟨?_, hok task db' h⟩
    simp [createTask, hu, h, successResponse]
  · intro res db' h
    unfold createTask at h
    simp only [hu] at h
    split at h
    · simp at h
    · rename_i task db2 hcreate
      simp only [Step.respond.injEq] at h
      obtain ⟨rfl, rfl⟩ := h
      exact ⟨rfl, task, rfl, hok task db2 hcreate⟩

/-- Witness of C8: Bob posts a body that names Ann as `user`; the stored task
belongs to Bob and the status is 201. -/
theorem C8_witness :
    createTask demoEnv
        (asUser bob "" [("title", jstr "Plan"), ("description", jstr "Sprint plan"), ("user", jstr annId)])
        demoDb =
      .respond ⟨201, true, some "Task created successfully", none,
        some (.task (some ⟨"64a0000000000000000000ff", "Plan", "Sprint plan", "pending",
          "medium", none, bobId⟩))⟩
        ⟨[ann, bob, root, cy], [annTask, ⟨"64a0000000000000000000ff", "Plan", "Sprint plan",
          "pending", "medium", none, bobId⟩]⟩ :=
  ((C8_createTask_owner_is_caller demoEnv
    (asUser bob "" [("title", jstr "Plan"), ("description", jstr "Sprint plan"), ("user", jstr annId)])
    demoDb bob.selectNoPassword rfl).2.2.1 _ _ (by decide)).1

/-! ## Validation layer -/

/-- Trimming never lengthens a string. -/
theorem jsTrim_length_le (s : String) : (jsTrim s).length ≤ s.length := by
  unfold jsTrim
  show ((s.data.dropWhile jsIsSpace).reverse.dropWhile jsIsSpace).reverse.length ≤ s.data.length
  rw [List.length_reverse]
  calc ((s.data.dropWhile jsIsSpace).reverse.dropWhile jsIsSpace).length
      ≤ (s.data.dropWhile jsIsSpace).reverse.length :=
        (List.dropWhile_sublist _).length_le
    _ = (s.data.dropWhile jsIsSpace).length := List.length_reverse _
    _ ≤ s.data.length := (List.dropWhile_sublist _).length_le

/-- A chain never drops a message that was already collected. -/
theorem runItems_errors_ne_nil (env : Env) (field : String) (items : List ChainItem) :
    ∀ (v : Option JVal) (body : Body) (errs : List String), errs ≠ [] →
      (runItems env field items v body errs).2 ≠ [] := by
  induction items with
  | nil => intro v body errs h; simpa [runItems] using h
  | cons item rest ih =>
    intro v body errs h
    cases item with
    | trim => exact ih _ _ _ h
    | normalizeEmail => exact ih _ _ _ h
    | check val message =>
      simp only [runItems]
      apply ih
      simp [h]

/-- A rule set never drops a message that was already collected. -/
theorem runChains_errors_ne_nil (env : Env) (cs : List Chain) :
    ∀ req : Request, req.validationErrors ≠ [] →
      (runChains env cs req).validationErrors ≠ [] := by
  induction cs with
  | nil => intro req h; simpa [runChains] using h
  | cons c rest ih =>
    intro req h
    simp only [runChains]
    apply ih
    simp [h]

/-- One step of `runChains`. -/
theorem runChains_cons (env : Env) (c : Chain) (rest : List Chain) (req : Request) :
    runChains env (c :: rest) req = runChains env rest
      { req with body := (runChain env c req.body).1,
                 validationErrors := req.validationErrors ++ (runChain env c req.body).2 } := rfl

/-- The first two chains of `taskValidation` are those of title and description. -/
theorem taskValidation_eq : taskValidation =
    ⟨"title", false,
      [.trim, .check .notEmpty "Title is required",
       .check (.isLength 3 (some 100)) "Title must be between 3 and 100 characters"]⟩ ::
    ⟨"description", false,
      [.trim, .check .notEmpty "Description is required",
       .check (.isLength 5 (some 500)) "Description must be between 5 and 500 characters"]⟩ ::
    taskValidation.drop 2 := rfl

/-- The length `isLength` measures is at most the number of code points. -/
theorem validatorLength_le (s : String) : validatorLength s ≤ s.length :=
  Nat.sub_le _ _

/-- The strings of a sanitized value are the sanitized strings of the value. -/
theorem fieldStrings_sanitized (f : String → String) (v : Option JVal) :
    fieldStrings (some (sanitized f v)) = (fieldStrings v).map f := by
  cases v with
  | none => rfl
  | some x =>
    cases x with
    | leaf y => rfl
    | arr xs => simp [sanitized, fieldStrings, List.map_map, JScalar.toStr]

/-- A chain that is not optional runs its links on the value of the field,
present or missing. -/
theorem runChain_required (env : Env) (field : String) (items : List ChainItem)
    (body : Body) :
    runChain env ⟨field, false, items⟩ body = runItems env field items (body.get field) body [] := by
  unfold runChain
  cases hget : body.get field <;> simp

/-- A chain `trim, notEmpty, isLength min max` leaves the trimmed value in the
body, and collects a message when one of the strings it checks is, trimmed,
shorter than `min`. -/
theorem trimmed_length_chain (env : Env) (field m1 m2 : String) (min : Nat)
    (max : Option Nat) (body : Body) :
    (runChain env ⟨field, false,
        [.trim, .check .notEmpty m1, .check (.isLength min max) m2]⟩ body).1 =
      body.set field (sanitized jsTrim (body.get field)) ∧
    ((∃ s ∈ fieldStrings (body.get field), validatorLength (jsTrim s) < min) →
      (runChain env ⟨field, false,
        [.trim, .check .notEmpty m1, .check (.isLength min max) m2]⟩ body).2 ≠ []) := by
  rw [runChain_required]
  refine ⟨rfl, ?_⟩
  rintro ⟨s, hs, hlen⟩
  simp only [runItems, fieldStrings_sanitized]
  have hmem : jsTrim s ∈ ((fieldStrings (body.get field)).map jsTrim).filter
      fun x => !(Validator.isLength min max).holds env x := by
    rw [List.mem_filter]
    refine ⟨List.mem_map_of_mem _ hs, ?_⟩
    have hnot : ¬ (min ≤ validatorLength (jsTrim s)) := Nat.not_le.mpr hlen
    simp [Validator.holds, hnot]
  intro hnil
  have hnil2 := (List.append_eq_nil.mp hnil).2
  rw [List.map_eq_nil_iff] at hnil2
  rw [hnil2] at hmem
  exact absurd hmem (List.not_mem_nil _)

/-- The rule set `taskValidation` collects a message when a string of the
title is, trimmed, shorter than 3, or one of the description shorter than 5. -/
theorem taskValidation_rejects (env : Env) (req : Request)
    (h : (∃ s ∈ fieldStrings (req.body.get "title"), validatorLength (jsTrim s) < 3) ∨
      (∃ s ∈ fieldStrings (req.body.get "description"), validatorLength (jsTrim s) < 5)) :
    (runChains env taskValidation req).validationErrors ≠ [] := by
  rw [taskValidation_eq, runChains_cons, runChains_cons]
  apply runChains_errors_ne_nil
  obtain ⟨hb1, he1⟩ := trimmed_length_chain env "title" "Title is required"
    "Title must be between 3 and 100 characters" 3 (some 100) req.body
  rcases h with h | h
  · have := he1 h
    simp [this]
  · rw [hb1]
    obtain ⟨-, he2⟩ := trimmed_length_chain env "description" "Description is required"
      "Description must be between 5 and 500 characters" 5 (some 500)
      (req.body.set "title" (sanitized jsTrim (req.body.get "title")))
    rw [Body.get_set_ne _ _ _ _ (by decide)] at he2
    have := he2 h
    simp [this]

/-- When `protect` calls next, it has only attached the user to the request. -/
theorem protect_next (env : Env) (req req' : Request) (db db' : DB)
    (h : protect env req db = .next req' db') :
    req'.body = req.body ∧ req'.validationErrors = req.validationErrors ∧ db' = db := by
  unfold protect at h
  split at h
  · simp at h
  · split at h
    · simp at h
    · split at h
      · simp at h
      · split at h
        · simp at h
        · dsimp only at h
          split at h
          · simp at h
          · split at h
            · simp at h
            · simp only [Step.next.injEq] at h
              obtain ⟨rfl, rfl⟩ := h
              exact ⟨rfl, rfl, rfl⟩

/-- C9, as the spec states it, fails: Ann posts a task whose title is the
empty array, a value of length 0. The rule set checks an array element by
element, so it collects no message, validate calls next and createTask is
invoked; storage then refuses the title and the fault is forwarded to the
error handler. -/
theorem C9_counterexample :
    fieldStrings (some (.arr [])) = [] ∧
      (runChains demoEnv taskValidation
        { mkRequest (some ("Bearer jwt." ++ annId)) ""
            [("title", .arr []), ("description", jstr "Long enough")] with
          user := some ann.selectNoPassword }).validationErrors = [] ∧
      runStages demoEnv [.protect, .rules taskValidation, .validate, .handler .createTask]
          (mkRequest (some ("Bearer jwt." ++ annId)) ""
            [("title", .arr []), ("description", jstr "Long enough")]) demoDb =
        ⟨.forwarded (validationError [("title", "Cast failed for path title")]), demoDb,
          [.protect, .rules taskValidation, .validate, .handler .createTask]⟩ := by
  decide

/-- C9, amended: on POST /tasks, an authenticated request is answered 400 by
validate with the joined messages when one of the strings the rule set checks
for the title has length below 3, or one for the description length below 5,
before or after trimming; the strings checked are the string form of the value
(the empty string for a missing or null value) or, for an array, the string
forms of its elements, none for an empty array. The stages that ran are
protect, the rule set and validate, so createTask is not invoked and the
database is unchanged. -/
theorem C9_short_title_or_description_is_rejected
    (env : Env) (r : Route) (req req' : Request) (db : DB)
    (hr : r ∈ taskRoutes) (hm : r.method = .POST)
    (hauth : protect env req db = .next req' db)
    (hshort : (∃ s ∈ fieldStrings (req.body.get "title"),
        s.length < 3 ∨ validatorLength (jsTrim s) < 3) ∨
      (∃ s ∈ fieldStrings (req.body.get "description"),
        s.length < 5 ∨ validatorLength (jsTrim s) < 5)) :
    r.stages = [.protect, .rules taskValidation, .validate, .handler .createTask] ∧
      runStages env r.stages req db =
        ⟨.responded ⟨400, false, none,
            some (jsJoin (runChains env taskValidation req').validationErrors ", "), none⟩,
          db, [.protect, .rules taskValidation, .validate]⟩ ∧
      (runChains env taskValidation req').validationErrors ≠ [] := by
  have hstages : r.stages = [.protect, .rules taskValidation, .validate, .handler .createTask] := by
    simp only [taskRoutes, List.mem_cons, List.mem_singleton] at hr
    rcases hr with h | h | h | h | h | h | h
    any_goals (subst h; first | rfl | exact absurd hm (by decide))
    exact absurd h (List.not_mem_nil _)
  obtain ⟨hbody, -, -⟩ := protect_next env req req' db db hauth
  have hlen : ∀ (s : String) (n : Nat), s.length < n ∨ validatorLength (jsTrim s) < n →
      validatorLength (jsTrim s) < n := by
    intro s n h
    rcases h with h | h
    · exact lt_of_le_of_lt ((validatorLength_le _).trans (jsTrim_length_le _)) h
    · exact h
  have htrim : (∃ s ∈ fieldStrings (req'.body.get "title"), validatorLength (jsTrim s) < 3) ∨
      (∃ s ∈ fieldStrings (req'.body.get "description"),
        validatorLength (jsTrim s) < 5) := by
    rw [hbody]
    rcases hshort with ⟨s, hs, h⟩ | ⟨s, hs, h⟩
    · exact Or.inl ⟨s, hs, hlen s 3 h⟩
    · exact Or.inr ⟨s, hs, hlen s 5 h⟩
  have herrs := taskValidation_rejects env req' htrim
  refine ⟨hstages, ?_, herrs⟩
  rw [hstages]
  simp [runStages, Stage.run, hauth, validate, herrs, errorResponse]

/-- Witness of C9 (amended): a title that reaches three characters only
through the blanks around it. -/
theorem C9_witness :
    runStages demoEnv [.protect, .rules taskValidation, .validate, .handler .createTask]
        (mkRequest (some ("Bearer jwt." ++ annId)) ""
          [("title", jstr " ab "), ("description", jstr "Quarterly numbers")]) demoDb =
      ⟨.responded ⟨400, false, none,
          some (jsJoin (runChains demoEnv taskValidation
            { mkRequest (some ("Bearer jwt." ++ annId)) ""
                [("title", jstr " ab "), ("description", jstr "Quarterly numbers")] with
              user := some ann.selectNoPassword }).validationErrors ", "), none⟩,
        demoDb, [.protect, .rules taskValidation, .validate]⟩ :=
  (C9_short_title_or_description_is_rejected demoEnv
    ⟨.POST, "/", [.protect, .rules taskValidation, .validate, .handler .createTask]⟩
    (mkRequest (some ("Bearer jwt." ++ annId)) ""
      [("title", jstr " ab "), ("description", jstr "Quarterly numbers")])
    { mkRequest (some ("Bearer jwt." ++ annId)) ""
        [("title", jstr " ab "), ("description", jstr "Quarterly numbers")] with
      user := some ann.selectNoPassword }
    demoDb (by decide) rfl (by decide)
    (Or.inl ⟨" ab ", by decide, Or.inr (by decide)⟩)).2.1

/-- The worker of `String.intercalate` appends the separator and the joined rest. -/
theorem intercalate_go_eq (sep : String) (rest : List String) :
    ∀ acc : String, String.intercalate.go acc sep rest =
      match rest with
      | [] => acc
      | y :: ys => acc ++ sep ++ jsJoin (y :: ys) sep := by
  induction rest with
  | nil => intro acc; rfl
  | cons y ys ih =>
    intro acc
    simp only [String.intercalate.go]
    rw [ih]
    cases ys with
    | nil => rfl
    | cons z zs => simp [jsJoin, String.append_assoc]

/-- The join of JavaScript is `String.intercalate`. -/
theorem jsJoin_eq_intercalate (xs : List String) (sep : String) :
    jsJoin xs sep = sep.intercalate xs := by
  cases xs with
  | nil => rfl
  | cons x rest =>
    simp only [String.intercalate]
    rw [intercalate_go_eq]
    cases rest with
    | nil => rfl
    | cons y ys => simp [jsJoin, String.append_assoc]

/-- C10: for every list of collected validation messages, validate answers 400
with the error string equal to the messages in collection order joined by
`, ` and does not call next when the list is not empty; when it is empty,
validate sends no response and calls next once with the request unchanged. -/
theorem C10_validate_joins_collected_messages (req : Request) (db : DB) :
    (req.validationErrors ≠ [] →
        validate req db = .respond
          ⟨400, false, none, some (", ".intercalate req.validationErrors), none⟩ db ∧
        (validate req db).calledNext = false) ∧
      (req.validationErrors = [] →
        validate req db = .next req db ∧ (validate req db).response? = none) := by
  refine ⟨fun h => ?_, fun h => ?_⟩
  · have hv : validate req db = .respond
        ⟨400, false, none, some (", ".intercalate req.validationErrors), none⟩ db := by
      simp [validate, h, errorResponse, jsJoin_eq_intercalate]
    rw [hv]
    exact ⟨rfl, rfl⟩
  · have hv : validate req db = .next req db := by
      simp [validate, h]
    rw [hv]
    exact ⟨rfl, rfl⟩

/-- Witness of C10: two collected messages, and none. -/
theorem C10_witness :
    validate { asUser ann "" [] with
        validationErrors := ["Title is required", "Description is required"] } demoDb =
      .respond ⟨400, false, none, some "Title is required, Description is required", none⟩
        demoDb ∧
    validate (asUser ann "" []) demoDb = .next (asUser ann "" []) demoDb :=
  ⟨((C10_validate_joins_collected_messages { asUser ann "" [] with
        validationErrors := ["Title is required", "Description is required"] } demoDb).1
      (by decide)).1,
    ((C10_validate_joins_collected_messages (asUser ann "" []) demoDb).2 rfl).1⟩

/-! ## Error translator -/

/-- C11: for every fault with code 11000 whose name is not CastError and whose
keyValue has a first key, errorHandler answers with status 400 and the error
message made of that key with its first character upper-cased, followed by
` already exists`. -/
theorem C11_duplicate_key_names_conflicting_field
    (env : Env) (err : Fault) (field value : String) (rest : List (String × String))
    (hcode : err.code = some 11000) (hname : err.name ≠ some "CastError")
    (hkv : err.keyValue = some ((field, value) :: rest)) :
    errorHandler env err = .ok ⟨400, false, none,
      some (env.toUpperCase (String.mk (field.data.take 1)) ++ String.mk (field.data.drop 1)
        ++ " already exists"), none⟩ := by
  simp [errorHandler, hcode, hname, hkv, errorResponse, capitalizeFirst]

/-- Witness of C11: a duplicate email gives 400 `Email already exists`. -/
theorem C11_witness :
    errorHandler demoEnv duplicateEmail =
      .ok ⟨400, false, none, some "Email already exists", none⟩ :=
  (C11_duplicate_key_names_conflicting_field demoEnv duplicateEmail "email" "a@x.com" []
    (by decide) (by decide) (by decide)).trans (by decide)

/-- A status code between 100 and 999 that allows a body is sent with the
error envelope. -/
theorem sendError_ok (env : Env) (message : String) (statusCode : Nat)
    (h : 100 ≤ statusCode ∧ statusCode ≤ 999) (hb : env.forbidsBody statusCode = false) :
    sendError env message statusCode = .ok ⟨statusCode, false, none, some message, none⟩ := by
  simp [sendError, h.1, h.2, hb, errorResponse]

/-- The error handler throws itself on a fault with code 11000 that has no
first key in keyValue, on a ValidationError that has no `errors`, and on a
fault of the last row whose status code is not between 100 and 999; on no
other fault. -/
theorem errorHandler_throws_iff (env : Env) (err : Fault) :
    (∃ e, errorHandler env err = .error e) ↔
      err.name ≠ some "CastError" ∧
        ((err.code = some 11000 ∧ (err.keyValue = none ∨ err.keyValue = some [])) ∨
          (err.code ≠ some 11000 ∧ err.name = some "ValidationError" ∧ err.errors = none) ∨
          (err.code ≠ some 11000 ∧ err.name ≠ some "ValidationError" ∧
            err.name ≠ some "JsonWebTokenError" ∧ err.name ≠ some "TokenExpiredError" ∧
            ¬ (100 ≤ statusOrDefault err.statusCode ∧ statusOrDefault err.statusCode ≤ 999))) := by
  unfold errorHandler
  by_cases h1 : err.name = some "CastError"
  · simp [h1]
  · by_cases h2 : err.code = some 11000
    · rcases hkv : err.keyValue with _ | kv
      · simp [h1, h2]
      · cases kv with
        | nil => simp [h1, h2]
        | cons a b => simp [h1, h2]
    · by_cases h3 : err.name = some "ValidationError"
      · rcases herr : err.errors with _ | errs
        · simp [h2, h3]
        · simp [h2, h3]
      · by_cases h4 : err.name = some "JsonWebTokenError"
        · simp [h2, h4]
        · by_cases h5 : err.name = some "TokenExpiredError"
          · simp [h2, h5]
          · by_cases hr : 100 ≤ statusOrDefault err.statusCode ∧
                statusOrDefault err.statusCode ≤ 999
            · have hs : ∀ e, sendError env (messageOrDefault err.message)
                  (statusOrDefault err.statusCode) ≠ .error e := by
                intro e
                unfold sendError
                rw [if_pos (by simpa using hr)]
                split <;> simp
              simp [h1, h2, h3, h4, h5, hs, hr]
            · have hs : sendError env (messageOrDefault err.message)
                  (statusOrDefault err.statusCode) =
                  .error (Fault.named "RangeError" "Invalid status code") := by
                unfold sendError
                rw [if_neg]
                simpa using hr
              simp [h1, h2, h3, h4, h5, hs, hr]

/-- Every response of the error handler has the error-envelope shape, unless
its status code forbids a body. -/
theorem errorHandler_envelope (env : Env) (err : Fault) (res : Response)
    (h : errorHandler env err = .ok res) :
    res.success = false ∧ res.message = none ∧ res.data = none ∧
      (res.error.isSome = true ∨ env.forbidsBody res.status = true) := by
  unfold errorHandler sendError at h
  repeat' split at h
  all_goals first
    | (simp only [Except.ok.injEq] at h; subst h; simp [errorResponse]; done)
    | (simp only [Except.ok.injEq] at h; subst h; simp; assumption)
    | simp at h

/-- C12, at the failing input: a duplicate-key fault (code 11000) that carries
no keyValue. errorHandler sends no response: reading the keys of the missing
keyValue throws a TypeError out of the handler. The same happens on a fault
named ValidationError that carries no `errors`. -/
theorem C12_errorHandler_throws_without_keyValue (env : Env) :
    duplicateNoKeyValue.code = some 11000 ∧ duplicateNoKeyValue.keyValue = none ∧
      errorHandler env duplicateNoKeyValue =
        .error (Fault.named "TypeError" "Cannot convert undefined or null to object") ∧
      errorHandler env (Fault.named "ValidationError" "Validation failed") =
        .error (Fault.named "TypeError" "Cannot convert undefined or null to object") := by
  refine ⟨rfl, rfl, ?_, ?_⟩
  · simp [errorHandler, duplicateNoKeyValue]
  · simp [errorHandler, Fault.named]

/-- C13, as the spec states it, fails: a fault that is in no classified row
and supplies the status code 0 is answered with 500, not with its own status
code, because `error.statusCode || 500` treats 0 as absent; a fault that
supplies the status code 42 gets no response at all, because a status code
outside 100 to 999 cannot be sent and the handler throws; and a fault that
supplies the status code 204 is answered 204 without the envelope and its
message, because that status forbids a body. -/
theorem C13_counterexample :
    (⟨some "Error", some "boom", none, some 0, none, none⟩ : Fault).statusCode = some 0 ∧
      errorHandler demoEnv ⟨some "Error", some "boom", none, some 0, none, none⟩ =
        .ok ⟨500, false, none, some "boom", none⟩ ∧
      errorHandler demoEnv ⟨some "Error", some "boom", none, some 42, none, none⟩ =
        .error (Fault.named "RangeError" "Invalid status code") ∧
      errorHandler demoEnv ⟨some "Error", some "boom", none, some 204, none, none⟩ =
        .ok ⟨204, false, none, none, none⟩ := by
  decide

/-- C13, amended: errorHandler classifies in the order CastError, code 11000,
ValidationError, JsonWebTokenError, TokenExpiredError, the first matching row
winning. A CastError gives 404 `Resource not found`; a fault with code 11000
and a first key in keyValue gives 400 and names the key, whatever its name
(other than CastError); a ValidationError that carries `errors` gives 400
with the per-field messages joined by `, `; a JsonWebTokenError gives 401
`Invalid token`; a TokenExpiredError gives 401 `Token expired`; every other
fault gives its own statusCode when it supplies one between 100 and 999 that
allows a response body, and 500 when it supplies none or 0, with its message
when it has a non-empty one and `Server Error` otherwise. -/
theorem C13_errorHandler_classification (env : Env) (err : Fault) :
    (err.name = some "CastError" →
        errorHandler env err = .ok ⟨404, false, none, some "Resource not found", none⟩) ∧
      (err.name ≠ some "CastError" → err.code = some 11000 →
        ∀ field value rest, err.keyValue = some ((field, value) :: rest) →
          errorHandler env err = .ok ⟨400, false, none,
            some (capitalizeFirst env field ++ " already exists"), none⟩) ∧
      (err.name ≠ some "CastError" → err.code ≠ some 11000 →
        (err.name = some "ValidationError" → ∀ errs, err.errors = some errs →
          errorHandler env err = .ok ⟨400, false, none,
            some (", ".intercalate (errs.map fun e => e.2.getD "")), none⟩) ∧
        (err.name = some "JsonWebTokenError" →
          errorHandler env err = .ok ⟨401, false, none, some "Invalid token", none⟩) ∧
        (err.name = some "TokenExpiredError" →
          errorHandler env err = .ok ⟨401, false, none, some "Token expired", none⟩) ∧
        (err.name ≠ some "ValidationError" → err.name ≠ some "JsonWebTokenError" →
          err.name ≠ some "TokenExpiredError" →
          ∃ message,
            (∀ m, err.message = some m → m ≠ "" → message = m) ∧
            (err.message = none ∨ err.message = some "" → message = "Server Error") ∧
            (∀ c, err.statusCode = some c → 100 ≤ c → c ≤ 999 → env.forbidsBody c = false →
              errorHandler env err = .ok ⟨c, false, none, some message, none⟩) ∧
            (err.statusCode = none ∨ err.statusCode = some 0 → env.forbidsBody 500 = false →
              errorHandler env err = .ok ⟨500, false, none, some message, none⟩))) := by
  refine ⟨fun h1 => ?_, fun h1 h2 field value rest hkv => ?_, fun h1 h2 => ⟨?_, ?_, ?_, ?_⟩⟩
  · simp [errorHandler, h1, errorResponse]
  · simp [errorHandler, h1, h2, hkv, errorResponse]
  · intro h3 errs herrs
    simp [errorHandler, h2, h3, herrs, errorResponse, jsJoin_eq_intercalate]
  · intro h4
    simp [errorHandler, h2, h4, errorResponse]
  · intro h5
    simp [errorHandler, h2, h5, errorResponse]
  · intro h3 h4 h5
    have hrow : errorHandler env err =
        sendError env (messageOrDefault err.message) (statusOrDefault err.statusCode) := by
      simp [errorHandler, h1, h2, h3, h4, h5]
    refine ⟨messageOrDefault err.message, ?_, ?_, ?_, ?_⟩
    · intro m hm hm0
      simp [messageOrDefault, hm, hm0]
    · rintro (h | h) <;> simp [messageOrDefault, h]
    · intro c hc hlo hhi hb
      have hc0 : c ≠ 0 := by omega
      have hs : statusOrDefault err.statusCode = c := by simp [statusOrDefault, hc, hc0]
      rw [hrow, hs]
      exact sendError_ok env _ _ ⟨hlo, hhi⟩ hb
    · intro h hb
      have hs : statusOrDefault err.statusCode = 500 := by
        rcases h with h | h <;> simp [statusOrDefault, h]
      rw [hrow, hs]
      exact sendError_ok env _ _ ⟨by decide, by decide⟩ hb

/-- Witness of C13 (amended): a schema ValidationError with two per-field
messages, and an unclassified fault that supplies status 418 and no message. -/
theorem C13_witness :
    errorHandler demoEnv
        (validationError [("status", "bad status"), ("priority", "bad priority")]) =
      .ok ⟨400, false, none, some "bad status, bad priority", none⟩ ∧
    errorHandler demoEnv ⟨some "Error", none, none, some 418, none, none⟩ =
      .ok ⟨418, false, none, some "Server Error", none⟩ := by
  refine ⟨(((C13_errorHandler_classification demoEnv
      (validationError [("status", "bad status"), ("priority", "bad priority")])).2.2
      (by decide) (by decide)).1 (by decide) _ rfl).trans (by decide), ?_⟩
  obtain ⟨message, -, hm, hc, -⟩ :=
    ((C13_errorHandler_classification demoEnv
      ⟨some "Error", none, none, some 418, none, none⟩).2.2
      (by decide) (by decide)).2.2.2 (by decide) (by decide) (by decide)
  rw [← hm (Or.inl rfl)]
  exact hc 418 rfl (by decide) (by decide) (by decide)

/-! ## Order of the stages and route matching -/

/-- The middleware `protect` never changes the database. -/
theorem protect_db (env : Env) (req : Request) (db : DB) : (protect env req db).db = db := by
  unfold protect
  split
  · rfl
  · split
    · rfl
    · split
      · rfl
      · split
        · rfl
        · rename_i found _
          cases found with
          | none => rfl
          | some u =>
            by_cases h : (!(User.selectNoPassword u).isActive) = true <;> simp [h, Step.db]

/-- C14, as the spec states it, fails: on POST /tasks an empty body is invalid,
yet with no Authorization header the request is answered 401 by protect and
the rule set never runs; the same body is answered 400 by validate only when
the request carries the valid token of Ann. -/
theorem C14_counterexample :
    (⟨.POST, "/", [.protect, .rules taskValidation, .validate, .handler .createTask]⟩ : Route)
        ∈ taskRoutes ∧
      runStages demoEnv [.protect, .rules taskValidation, .validate, .handler .createTask]
          (mkRequest none "" []) demoDb =
        ⟨.responded ⟨401, false, none, some "Not authorized to access this route", none⟩,
          demoDb, [.protect]⟩ ∧
      runStages demoEnv [.protect, .rules taskValidation, .validate, .handler .createTask]
          (mkRequest (some ("Bearer jwt." ++ annId)) "" []) demoDb =
        ⟨.responded ⟨400, false, none,
            some ("Title is required, Title must be between 3 and 100 characters, " ++
              "Description is required, Description must be between 5 and 500 characters"),
            none⟩,
          demoDb, [.protect, .rules taskValidation, .validate]⟩ := by
  decide

/-- C14, amended: the only route that declares both authentication and a rule
set is POST /tasks, and there protect is the first stage and the rule set the
second. A request that protect answers (401, 404 or 403) gets that answer
whatever its body and no other stage runs; a request with an invalid body is
answered 400 by validate only after protect has called next. -/
theorem C14_authentication_runs_before_validation
    (env : Env) (r : Route) (req : Request) (db : DB)
    (hr : r ∈ taskRoutes ++ authRoutes) (hp : Stage.protect ∈ r.stages)
    (hv : ∃ cs, Stage.rules cs ∈ r.stages) :
    r.stages = [.protect, .rules taskValidation, .validate, .handler .createTask] ∧
      (∀ res db', protect env req db = .respond res db' →
        runStages env r.stages req db = ⟨.responded res, db, [.protect]⟩) ∧
      (∀ req', protect env req db = .next req' db →
        (runChains env taskValidation req').validationErrors ≠ [] →
        runStages env r.stages req db =
          ⟨.responded ⟨400, false, none,
              some (jsJoin (runChains env taskValidation req').validationErrors ", "), none⟩,
            db, [.protect, .rules taskValidation, .validate]⟩) := by
  have hstages : r.stages = [.protect, .rules taskValidation, .validate, .handler .createTask] := by
    obtain ⟨cs, hcs⟩ := hv
    simp only [taskRoutes, authRoutes, List.mem_append, List.mem_cons, List.mem_singleton] at hr
    rcases hr with (h | h | h | h | h | h | h) | (h | h | h | h | h)
    any_goals (subst h; first | rfl | (exfalso; revert hp; decide) | (exfalso; simp at hcs))
    all_goals exact absurd h (List.not_mem_nil _)
  refine ⟨hstages, ?_, ?_⟩
  · intro res db' h
    have hdb : db' = db := by
      have := protect_db env req db
      rw [h] at this
      exact this
    subst hdb
    rw [hstages]
    simp [runStages, Stage.run, h]
  · intro req' h herrs
    rw [hstages]
    simp [runStages, Stage.run, h, validate, herrs, errorResponse]

/-- Witness of C14 (amended): POST /tasks with an empty body and a token that
does not verify is answered 401 by protect. -/
theorem C14_witness :
    runStages demoEnv [.protect, .rules taskValidation, .validate, .handler .createTask]
        (mkRequest (some "Bearer forged") "" []) demoDb =
      ⟨.responded ⟨401, false, none, some "Not authorized to access this route", none⟩,
        demoDb, [.protect]⟩ :=
  (C14_authentication_runs_before_validation demoEnv
    ⟨.POST, "/", [.protect, .rules taskValidation, .validate, .handler .createTask]⟩
    (mkRequest (some "Bearer forged") "" []) demoDb (by decide) (by decide)
    ⟨taskValidation, by decide⟩).2.1 _ demoDb (by decide)

/-- The stages of the statistics route never all call next: the handler answers. -/
theorem stats_stages_answer (env : Env) (roles : List String) (req : Request) (db : DB) :
    passThrough env [.protect, .authorize roles, .handler .getTaskStats] req db = none := by
  simp only [passThrough, Stage.run]
  split
  · split
    · simp [Handler.run, getTaskStats]
    · rfl
  · rfl

/-- A request for GET /stats below the task mount point runs the stages of the
statistics route, with no path parameter. -/
theorem dispatch_stats (env : Env) (req : Request) (db : DB) :
    dispatch env taskRoutes .GET "/stats" req db =
      runStages env [.protect, .authorize ["admin"], .handler .getTaskStats]
        { req with paramId := "" } db := by
  have h1 : matchPath "/" "/stats" = none := by decide
  have h2 : matchPath "/stats" "/stats" = some "" := by decide
  simp [taskRoutes, dispatch, h1, h2, stats_stages_answer]

/-- C16: for every authenticated, active user, GET /stats below the task mount
point reaches getTaskStats if and only if the role of the user is admin; any
other role is answered 403 by authorize before the handler runs; and the
request is not dispatched to getTask, since the statistics route is declared
before the `/:id` route. -/
theorem C16_stats_reaches_handler_iff_admin
    (env : Env) (req req' : Request) (db : DB) (u : User)
    (hauth : protect env { req with paramId := "" } db = .next req' db)
    (hu : req'.user = some u) :
    (u.role = "admin" → ∃ res,
        getTaskStats env req' db = .respond res db ∧ res.status = 200 ∧
        dispatch env taskRoutes .GET "/stats" req db =
          ⟨.responded res, db, [.protect, .authorize ["admin"], .handler .getTaskStats]⟩) ∧
      (u.role ≠ "admin" →
        dispatch env taskRoutes .GET "/stats" req db =
          ⟨.responded ⟨403, false, none,
              some ("User role '" ++ u.role ++ "' is not authorized to access this route"),
              none⟩,
            db, [.protect, .authorize ["admin"]]⟩) ∧
      (Stage.handler .getTaskStats ∈ (dispatch env taskRoutes .GET "/stats" req db).ran ↔
        u.role = "admin") ∧
      Stage.handler .getTask ∉ (dispatch env taskRoutes .GET "/stats" req db).ran := by
  by_cases hrole : u.role = "admin"
  · have hrun : dispatch env taskRoutes .GET "/stats" req db =
        ⟨.responded (successResponse "Task statistics retrieved successfully"
            (some (.stats db.tasks.length
              (((db.tasks.map fun t => t.status).eraseDups).map fun s =>
                (s, db.tasks.countP fun t => t.status == s)))) 200),
          db, [.protect, .authorize ["admin"], .handler .getTaskStats]⟩ := by
      rw [dispatch_stats]
      simp [runStages, Stage.run, hauth, authorize, hu, hrole, Handler.run, getTaskStats]
    refine ⟨fun _ => ⟨_, rfl, rfl, hrun⟩, fun h => absurd hrole h, ?_, ?_⟩
    · rw [hrun]
      simp [hrole]
    · rw [hrun]
      simp
  · have hrun : dispatch env taskRoutes .GET "/stats" req db =
        ⟨.responded ⟨403, false, none,
            some ("User role '" ++ u.role ++ "' is not authorized to access this route"),
            none⟩,
          db, [.protect, .authorize ["admin"]]⟩ := by
      rw [dispatch_stats]
      simp [runStages, Stage.run, hauth, authorize, hu, hrole, errorResponse]
    refine ⟨fun h => absurd h hrole, fun _ => hrun, ?_, ?_⟩
    · rw [hrun]
      simp [hrole]
    · rw [hrun]
      simp

/-- Witness of C16: Bob is answered 403 on GET /stats and the handler does not run. -/
theorem C16_witness :
    dispatch demoEnv taskRoutes .GET "/stats"
        (mkRequest (some ("Bearer jwt." ++ bobId)) "" []) demoDb =
      ⟨.responded ⟨403, false, none,
          some "User role 'user' is not authorized to access this route", none⟩,
        demoDb, [.protect, .authorize ["admin"]]⟩ :=
  (C16_stats_reaches_handler_iff_admin demoEnv
    (mkRequest (some ("Bearer jwt." ++ bobId)) "" [])
    { mkRequest (some ("Bearer jwt." ++ bobId)) "" [] with user := some bob.selectNoPassword }
    demoDb bob.selectNoPassword (by decide) rfl).2.1 (by decide)

/-! ## Reassigning the owner through an update -/

/-- The first task with the identifier, after the update in place. -/
theorem find_updateFirst (env : Env) (id : String) (doc : Body) (tasks : List Task) :
    (updateFirst env id doc tasks).find? (fun t => t._id == id) =
      (tasks.find? fun t => t._id == id).map fun t => applyUpdate env t doc := by
  induction tasks with
  | nil => rfl
  | cons t rest ih =>
    by_cases h : t._id = id
    · simp [updateFirst, h, applyUpdate]
    · simp [updateFirst, h, ih]

/-- A successful `Task.findById` means the identifier casts and the task is
the first stored one with it. -/
theorem Task.findById_some (env : Env) (db : DB) (id : String) (t : Task)
    (h : Task.findById env db id = .ok (some t)) :
    env.isObjectId id = true ∧ db.tasks.find? (fun x => x._id == id) = some t := by
  unfold Task.findById at h
  split at h
  · rename_i hid
    simp only [Except.ok.injEq] at h
    exact ⟨hid, h⟩
  · simp at h

/-- C17: the non-admin owner of a task submits an update whose body is a
`user` field naming another stored user. The update succeeds with 200, the
stored task then refers to that other user as its owner, and afterwards the
original owner is answered 403 by getTask, updateTask and deleteTask on that
task, whatever the body. -/
theorem C17_update_can_reassign_owner
    (env : Env) (db : DB) (req : Request) (t : Task) (u v : User)
    (hfind : Task.findById env db req.paramId = .ok (some t))
    (hu : req.user = some u) (hown : t.user = u._id) (hrole : u.role ≠ "admin")
    (hv : db.users.find? (fun x => x._id == v._id) = some v)
    (hcast : env.isObjectId v._id = true) (hne : v._id ≠ u._id)
    (hbody : req.body = [("user", jstr v._id)]) :
    ∃ db', updateTask env req db = .respond ⟨200, true, some "Task updated successfully", none,
          some (.task (some { t with user := v._id }))⟩ db' ∧
      Task.findById env db' req.paramId = .ok (some { t with user := v._id }) ∧
      ∀ req2 : Request, req2.user = some u → req2.paramId = req.paramId →
        getTask env req2 db' = .respond
          ⟨403, false, none, some "Not authorized to access this task", none⟩ db' ∧
        updateTask env req2 db' = .respond
          ⟨403, false, none, some "Not authorized to update this task", none⟩ db' ∧
        deleteTask env req2 db' = .respond
          ⟨403, false, none, some "Not authorized to delete this task", none⟩ db' := by
  obtain ⟨hid, hstored⟩ := Task.findById_some env db req.paramId t hfind
  have happly : applyUpdate env t [("user", jstr v._id)] = { t with user := v._id } := by
    simp [applyUpdate, Body.get, castGet, castValue, hcast]
  have hfind' : Task.findById env
      { db with tasks := updateFirst env req.paramId [("user", jstr v._id)] db.tasks } req.paramId =
      .ok (some { t with user := v._id }) := by
    simp [Task.findById, hid, find_updateFirst, hstored, happly]
  refine ⟨{ db with tasks := updateFirst env req.paramId [("user", jstr v._id)] db.tasks }, ?_,
    hfind', ?_⟩
  · simp [updateTask, hfind, hu, hown, Task.findByIdAndUpdate, hid, castErrors, enumErrors,
      pathCastErrors, castGet, castValue, hbody, Body.get, hcast, hstored, happly,
      successResponse]
  · intro req2 hu2 hp2
    have hfind2 : Task.findById env
        { db with tasks := updateFirst env req.paramId [("user", jstr v._id)] db.tasks }
        req2.paramId = .ok (some { t with user := v._id }) := by
      rw [hp2]
      exact hfind'
    obtain ⟨hupd, hdel, hget, -⟩ := nonowner_denied env req2 _ _ u hfind2 hu2 hne hrole
    refine ⟨?_, hupd, hdel⟩
    exact hget ⟨v._id, v.name, v.email⟩ (by simp [populateUser, hv])

/-- Witness of C17: Ann gives her task to Bob and is then refused on it. -/
theorem C17_witness :
    ∃ db', updateTask demoEnv (asUser ann taskId [("user", jstr bobId)]) demoDb =
        .respond ⟨200, true, some "Task updated successfully", none,
          some (.task (some { annTask with user := bobId }))⟩ db' ∧
      Task.findById demoEnv db' taskId = .ok (some { annTask with user := bobId }) ∧
      ∀ req2 : Request, req2.user = some ann.selectNoPassword → req2.paramId = taskId →
        getTask demoEnv req2 db' = .respond
          ⟨403, false, none, some "Not authorized to access this task", none⟩ db' ∧
        updateTask demoEnv req2 db' = .respond
          ⟨403, false, none, some "Not authorized to update this task", none⟩ db' ∧
        deleteTask demoEnv req2 db' = .respond
          ⟨403, false, none, some "Not authorized to delete this task", none⟩ db' :=
  C17_update_can_reassign_owner demoEnv demoDb (asUser ann taskId [("user", jstr bobId)]) annTask
    ann.selectNoPassword bob (by decide) rfl (by decide) (by decide) (by decide) (by decide)
    (by decide) rfl

/-! ## Round trip of create and fetch -/

/-- When `protect` calls next, the token named a castable identifier, the
first stored user with it was found, and that user without the password is
attached to the request. -/
theorem protect_next_user (env : Env) (req req' : Request) (db db' : DB)
    (h : protect env req db = .next req' db') :
    ∃ id u, env.isObjectId id = true ∧ db.users.find? (fun x => x._id == id) = some u ∧
      req' = { req with user := some u.selectNoPassword } ∧ db' = db := by
  unfold protect at h
  split at h
  · simp at h
  · split at h
    · simp at h
    · split at h
      · simp at h
      · split at h
        · simp at h
        · rename_i id _ _ found hfound
          cases found with
          | none => simp at h
          | some u =>
            unfold User.findById at hfound
            split at hfound
            · rename_i hid
              simp only [Except.ok.injEq] at hfound
              refine ⟨id, u, hid, hfound, ?_⟩
              by_cases ha : (!(User.selectNoPassword u).isActive) = true
              · simp [ha] at h
              · simp only [Option.map, ha] at h
                simp only [Bool.false_eq_true, if_false, Step.next.injEq] at h
                exact ⟨h.1.symm, h.2.symm⟩
            · simp at hfound

/-- A rule set changes only the body and the collected messages. -/
theorem runChains_user (env : Env) (cs : List Chain) :
    ∀ req : Request, (runChains env cs req).user = req.user := by
  induction cs with
  | nil => intro req; rfl
  | cons c rest ih =>
    intro req
    rw [runChains_cons, ih]

/-- An optional chain with one validator leaves the body as it is, and when
it collects no message every string it checks of a present value satisfies
the validator. -/
theorem check_chain (env : Env) (field message : String) (v : Validator) (body : Body) :
    (runChain env ⟨field, true, [.check v message]⟩ body).1 = body ∧
      ((runChain env ⟨field, true, [.check v message]⟩ body).2 = [] →
        ∀ x, body.get field = some x → ∀ s ∈ fieldStrings (some x), v.holds env s = true) := by
  unfold runChain
  cases hget : body.get field with
  | none => simp
  | some x =>
    refine ⟨rfl, ?_⟩
    intro herr y hy s hs
    cases hy
    simp only [runItems, List.nil_append, List.map_eq_nil_iff, List.filter_eq_nil_iff] at herr
    simpa using herr s hs

/-- The rule set `taskValidation` leaves the body with title and description
trimmed, and when it collects no message every string checked of a submitted
status and of a submitted priority is a value of its enumeration. -/
theorem taskValidation_run (env : Env) (req : Request) :
    (runChains env taskValidation req).body =
        (req.body.set "title" (sanitized jsTrim (req.body.get "title"))).set "description"
          (sanitized jsTrim (req.body.get "description")) ∧
      ((runChains env taskValidation req).validationErrors = [] →
        (∀ x, req.body.get "status" = some x →
          ∀ s ∈ fieldStrings (some x), statusEnum.contains s = true) ∧
        (∀ x, req.body.get "priority" = some x →
          ∀ s ∈ fieldStrings (some x), priorityEnum.contains s = true)) := by
  have ht := fun b => (trimmed_length_chain env "title" "Title is required"
    "Title must be between 3 and 100 characters" 3 (some 100) b).1
  have hd := fun b => (trimmed_length_chain env "description" "Description is required"
    "Description must be between 5 and 500 characters" 5 (some 500) b).1
  have hs := fun b => check_chain env "status"
    "Status must be pending, in-progress, or completed"
    (.isIn ["pending", "in-progress", "completed"]) b
  have hp := fun b => check_chain env "priority" "Priority must be low, medium, or high"
    (.isIn ["low", "medium", "high"]) b
  have hdue := fun b => (check_chain env "dueDate" "Please provide a valid date" .isISO8601 b).1
  have hdesc : ∀ (b : Body) (x : JVal),
      ((b.set "title" x).get "description") = b.get "description" :=
    fun b x => Body.get_set_ne b "title" "description" x (by decide)
  have hunfold : taskValidation =
      [⟨"title", false, [.trim, .check .notEmpty "Title is required",
          .check (.isLength 3 (some 100)) "Title must be between 3 and 100 characters"]⟩,
        ⟨"description", false, [.trim, .check .notEmpty "Description is required",
          .check (.isLength 5 (some 500)) "Description must be between 5 and 500 characters"]⟩,
        ⟨"status", true, [.check (.isIn ["pending", "in-progress", "completed"])
          "Status must be pending, in-progress, or completed"]⟩,
        ⟨"priority", true, [.check (.isIn ["low", "medium", "high"])
          "Priority must be low, medium, or high"]⟩,
        ⟨"dueDate", true, [.check .isISO8601 "Please provide a valid date"]⟩] := rfl
  rw [hunfold]
  simp only [runChains_cons, runChains, ht, hd, (hs _).1, (hp _).1, hdue, hdesc]
  refine ⟨trivial, fun herrs => ?_⟩
  simp only [List.append_eq_nil] at herrs
  obtain ⟨⟨⟨⟨-, -⟩, hse⟩, hpe⟩, -⟩ := herrs
  constructor
  · intro x hx s hsx
    have := (hs _).2 hse x (by
      rw [Body.get_set_ne _ _ _ _ (by decide), Body.get_set_ne _ _ _ _ (by decide)]
      exact hx) s hsx
    simpa [Validator.holds, statusEnum] using this
  · intro x hx s hsx
    have := (hp _).2 hpe x (by
      rw [Body.get_set_ne _ _ _ _ (by decide), Body.get_set_ne _ _ _ _ (by decide)]
      exact hx) s hsx
    simpa [Validator.holds, priorityEnum] using this

/-- C15, as the spec states it, fails. Ann submits a title and a description
with blanks around them: the payload passes taskValidation, the task is
created with 201, and fetching it by its identifier as Ann returns the trimmed
title `Plan` and description `Sprint plan`, not the submitted values. And three
payloads that pass taskValidation create no task to fetch, because storage
refuses them and createTask forwards the fault: a title that is an array, a
status that is an array, and a due date that is an ISO week date. -/
theorem C15_counterexample :
    (runStages demoEnv [.protect, .rules taskValidation, .validate, .handler .createTask]
        (mkRequest (some ("Bearer jwt." ++ annId)) ""
          [("title", jstr " Plan "), ("description", jstr " Sprint plan "),
            ("status", jstr "pending"), ("priority", jstr "high")]) demoDb =
      ⟨.responded ⟨201, true, some "Task created successfully", none,
          some (.task (some ⟨"64a0000000000000000000ff", "Plan", "Sprint plan", "pending",
            "high", none, annId⟩))⟩,
        ⟨[ann, bob, root, cy], [annTask, ⟨"64a0000000000000000000ff", "Plan", "Sprint plan",
          "pending", "high", none, annId⟩]⟩,
        [.protect, .rules taskValidation, .validate, .handler .createTask]⟩ ∧
    getTask demoEnv (asUser ann "64a0000000000000000000ff" [])
        ⟨[ann, bob, root, cy], [annTask, ⟨"64a0000000000000000000ff", "Plan", "Sprint plan",
          "pending", "high", none, annId⟩]⟩ =
      .respond ⟨200, true, some "Task retrieved successfully", none,
          some (.populated ⟨⟨"64a0000000000000000000ff", "Plan", "Sprint plan", "pending",
            "high", none, annId⟩, some ⟨annId, "Ann", "a@x.com"⟩⟩)⟩
        ⟨[ann, bob, root, cy], [annTask, ⟨"64a0000000000000000000ff", "Plan", "Sprint plan",
          "pending", "high", none, annId⟩]⟩ ∧
    "Plan" ≠ " Plan " ∧ "Sprint plan" ≠ " Sprint plan ") ∧
    runStages demoEnv [.protect, .rules taskValidation, .validate, .handler .createTask]
        (mkRequest (some ("Bearer jwt." ++ annId)) ""
          [("title", .arr [.str "Plan ahead"]), ("description", jstr "Sprint plan")]) demoDb =
      ⟨.forwarded (validationError [("title", "Cast failed for path title")]), demoDb,
        [.protect, .rules taskValidation, .validate, .handler .createTask]⟩ ∧
    runStages demoEnv [.protect, .rules taskValidation, .validate, .handler .createTask]
        (mkRequest (some ("Bearer jwt." ++ annId)) ""
          [("title", jstr "Plan"), ("description", jstr "Sprint plan"),
            ("status", .arr [.str "pending"])]) demoDb =
      ⟨.forwarded (validationError [("status", "Cast failed for path status")]), demoDb,
        [.protect, .rules taskValidation, .validate, .handler .createTask]⟩ ∧
    runStages demoEnv [.protect, .rules taskValidation, .validate, .handler .createTask]
        (mkRequest (some ("Bearer jwt." ++ annId)) ""
          [("title", jstr "Plan"), ("description", jstr "Sprint plan"),
            ("dueDate", jstr "2024-W05")]) demoDb =
      ⟨.forwarded (validationError [("dueDate", "Cast failed for path dueDate")]), demoDb,
        [.protect, .rules taskValidation, .validate, .handler .createTask]⟩ := by
  decide

/-- The fields that `Task.create` reads from the document `createTask` builds
out of a validated body. -/
theorem created_doc_fields (b : Body) (title description : JVal) (u : User) :
    (createTaskDoc u ((b.set "title" title).set "description" description)).get "title" =
        some title ∧
      (createTaskDoc u ((b.set "title" title).set "description" description)).get
        "description" = some description ∧
      (createTaskDoc u ((b.set "title" title).set "description" description)).get "user" =
        some (jstr u._id) ∧
      (createTaskDoc u ((b.set "title" title).set "description" description)).get "status" =
        b.get "status" ∧
      (createTaskDoc u ((b.set "title" title).set "description" description)).get "priority" =
        b.get "priority" ∧
      (createTaskDoc u ((b.set "title" title).set "description" description)).get "dueDate" =
        b.get "dueDate" := by
  simp only [createTaskDoc]
  refine ⟨?_, ?_, ?_, ?_, ?_, ?_⟩
  · rw [Body.get_set_ne _ _ _ _ (by decide), Body.get_set_ne _ _ _ _ (by decide),
      Body.get_set_self]
  · rw [Body.get_set_ne _ _ _ _ (by decide), Body.get_set_self]
  · rw [Body.get_set_self]
  · rw [Body.get_set_ne _ _ _ _ (by decide), Body.get_set_ne _ _ _ _ (by decide),
      Body.get_set_ne _ _ _ _ (by decide)]
  · rw [Body.get_set_ne _ _ _ _ (by decide), Body.get_set_ne _ _ _ _ (by decide),
      Body.get_set_ne _ _ _ _ (by decide)]
  · rw [Body.get_set_ne _ _ _ _ (by decide), Body.get_set_ne _ _ _ _ (by decide),
      Body.get_set_ne _ _ _ _ (by decide)]

/-- A path of the document that holds a JSON string casts to that string. -/
theorem castGet_string (env : Env) (doc : Body) (path s : String)
    (h : doc.get path = some (jstr s)) : castGet env .string doc path = some s := by
  simp [castGet, h, castValue]

/-- The enumeration validator passes a path that is not set or holds a JSON
string of the enumeration. -/
theorem enumErrors_nil (env : Env) (doc : Body) (path : String) (allowed : List String)
    (h : ∀ v, doc.get path = some v → ∃ s, v = jstr s ∧ s ∈ allowed) :
    enumErrors env doc path allowed = [] := by
  unfold enumErrors castGet
  cases hs : doc.get path with
  | none => rfl
  | some x =>
    obtain ⟨s, rfl, hmem⟩ := h x hs
    simp [castValue, hmem]

/-- A path casts without failure when it is not set or its value casts. -/
theorem pathCastErrors_nil (env : Env) (ty : SchemaType) (doc : Body) (path : String)
    (h : ∀ v, doc.get path = some v → (castValue env ty v).isSome = true) :
    pathCastErrors env ty doc path = [] := by
  unfold pathCastErrors
  cases hs : doc.get path with
  | none => rfl
  | some x => simp [h x hs]

/-- Creation succeeds on a document whose title, description and owner are
JSON strings, the owner an ObjectId, whose status and priority, if set, are
JSON strings of their enumerations, and whose due date, if set, casts. -/
theorem Task.create_ok (env : Env) (db : DB) (doc : Body) (title description uid : String)
    (g1 : doc.get "title" = some (jstr title))
    (g2 : doc.get "description" = some (jstr description))
    (g3 : doc.get "user" = some (jstr uid)) (hu : env.isObjectId uid = true)
    (hs : ∀ v, doc.get "status" = some v → ∃ s, v = jstr s ∧ s ∈ statusEnum)
    (hp : ∀ v, doc.get "priority" = some v → ∃ s, v = jstr s ∧ s ∈ priorityEnum)
    (hd : ∀ v, doc.get "dueDate" = some v → (castValue env .date v).isSome = true) :
    Task.create env db doc =
      .ok (⟨env.newObjectId db, title, description,
          (castGet env .string doc "status").getD "pending",
          (castGet env .string doc "priority").getD "medium",
          castGet env .date doc "dueDate", uid⟩,
        { db with tasks := db.tasks ++ [⟨env.newObjectId db, title, description,
          (castGet env .string doc "status").getD "pending",
          (castGet env .string doc "priority").getD "medium",
          castGet env .date doc "dueDate", uid⟩] }) := by
  have t1 := castGet_string env doc "title" title g1
  have t2 := castGet_string env doc "description" description g2
  have t3 : castGet env .objectId doc "user" = some uid := by
    simp [castGet, g3, castValue, hu]
  have e1 := enumErrors_nil env doc "status" statusEnum hs
  have e2 := enumErrors_nil env doc "priority" priorityEnum hp
  have c1 : pathCastErrors env .string doc "title" = [] :=
    pathCastErrors_nil env .string doc "title" (fun v hv => by
      rw [g1] at hv; cases hv; rfl)
  have c2 : pathCastErrors env .string doc "description" = [] :=
    pathCastErrors_nil env .string doc "description" (fun v hv => by
      rw [g2] at hv; cases hv; rfl)
  have c3 : pathCastErrors env .string doc "status" = [] :=
    pathCastErrors_nil env .string doc "status" (fun v hv => by
      obtain ⟨s, rfl, -⟩ := hs v hv; rfl)
  have c4 : pathCastErrors env .string doc "priority" = [] :=
    pathCastErrors_nil env .string doc "priority" (fun v hv => by
      obtain ⟨s, rfl, -⟩ := hp v hv; rfl)
  have c5 : pathCastErrors env .date doc "dueDate" = [] :=
    pathCastErrors_nil env .date doc "dueDate" hd
  have c6 : pathCastErrors env .objectId doc "user" = [] :=
    pathCastErrors_nil env .objectId doc "user" (fun v hv => by
      rw [g3] at hv; cases hv; simp [castValue, hu])
  unfold Task.create
  simp only [requiredErrors, castErrors, g1, g2, g3, e1, e2, c1, c2, c3, c4, c5, c6, t1, t2, t3]
  simp

/-- C15, amended: for every authenticated user and every task payload that
passes taskValidation, whose title and description are not arrays, whose
status and priority, when given, are strings, and whose due date, when given,
storage can cast, POST /tasks creates the task with 201 under the identifier
storage assigns, and getTask by that identifier as the same user returns
title and description equal to the string form of the submitted values with
the white space at both ends removed, and status and priority equal to the
submitted values, or `pending` and `medium` when none was submitted. -/
theorem C15_round_trip_returns_trimmed_values
    (env : Env) (req req' : Request) (db : DB) (tx dx : JScalar)
    (hauth : protect env req db = .next req' db)
    (hpass : (runChains env taskValidation req').validationErrors = [])
    (htitle : req.body.get "title" = some (.leaf tx))
    (hdesc : req.body.get "description" = some (.leaf dx))
    (hstatus : ∀ v, req.body.get "status" = some v → ∃ s, v = jstr s)
    (hpriority : ∀ v, req.body.get "priority" = some v → ∃ s, v = jstr s)
    (hdate : ∀ v, req.body.get "dueDate" = some v → (castValue env .date v).isSome = true)
    (hid : env.isObjectId (env.newObjectId db) = true)
    (hnew : ∀ t ∈ db.tasks, t._id ≠ env.newObjectId db) :
    ∃ task db' owner,
      task._id = env.newObjectId db ∧
      task.title = jsTrim tx.toStr ∧
      task.description = jsTrim dx.toStr ∧
      (∀ s, req.body.get "status" = some (jstr s) → task.status = s) ∧
      (req.body.get "status" = none → task.status = "pending") ∧
      (∀ s, req.body.get "priority" = some (jstr s) → task.priority = s) ∧
      (req.body.get "priority" = none → task.priority = "medium") ∧
      runStages env [.protect, .rules taskValidation, .validate, .handler .createTask] req db =
        ⟨.responded ⟨201, true, some "Task created successfully", none,
            some (.task (some task))⟩, db',
          [.protect, .rules taskValidation, .validate, .handler .createTask]⟩ ∧
      ∀ req2 : Request, req2.user = req'.user → req2.paramId = task._id →
        getTask env req2 db' = .respond ⟨200, true, some "Task retrieved successfully", none,
          some (.populated ⟨task, some owner⟩)⟩ db' := by
  obtain ⟨id, u, hcastu, hfindu, rfl, -⟩ := protect_next_user env req req' db db hauth
  have huid : u._id = id := by simpa using List.find?_some hfindu
  obtain ⟨hbody, hvalid⟩ := taskValidation_run env { req with user := some u.selectNoPassword }
  obtain ⟨hvs, hvp⟩ := hvalid hpass
  simp only [htitle, hdesc] at hbody
  obtain ⟨g1, g2, g3, g4, g5, g6⟩ := created_doc_fields req.body
    (sanitized jsTrim (some (.leaf tx))) (sanitized jsTrim (some (.leaf dx)))
    u.selectNoPassword
  have hcreate := Task.create_ok env db _ (jsTrim tx.toStr) (jsTrim dx.toStr) u._id g1 g2 g3
    (by rw [huid]; exact hcastu)
    (fun v hv => by
      rw [g4] at hv
      obtain ⟨s, rfl⟩ := hstatus v hv
      exact ⟨s, rfl, by
        simpa [fieldStrings, JScalar.toStr] using
          hvs _ hv s (by simp [fieldStrings, JScalar.toStr])⟩)
    (fun v hv => by
      rw [g5] at hv
      obtain ⟨s, rfl⟩ := hpriority v hv
      exact ⟨s, rfl, by
        simpa [fieldStrings, JScalar.toStr] using
          hvp _ hv s (by simp [fieldStrings, JScalar.toStr])⟩)
    (fun v hv => by
      rw [g6] at hv
      exact hdate v hv)
  have k4 : castGet env .string (createTaskDoc u.selectNoPassword
      ((req.body.set "title" (sanitized jsTrim (some (.leaf tx)))).set "description"
        (sanitized jsTrim (some (.leaf dx))))) "status" =
      castGet env .string req.body "status" := by
    unfold castGet
    rw [g4]
  have k5 : castGet env .string (createTaskDoc u.selectNoPassword
      ((req.body.set "title" (sanitized jsTrim (some (.leaf tx)))).set "description"
        (sanitized jsTrim (some (.leaf dx))))) "priority" =
      castGet env .string req.body "priority" := by
    unfold castGet
    rw [g5]
  have k6 : castGet env .date (createTaskDoc u.selectNoPassword
      ((req.body.set "title" (sanitized jsTrim (some (.leaf tx)))).set "description"
        (sanitized jsTrim (some (.leaf dx))))) "dueDate" =
      castGet env .date req.body "dueDate" := by
    unfold castGet
    rw [g6]
  rw [k4, k5, k6] at hcreate
  refine ⟨⟨env.newObjectId db, jsTrim tx.toStr, jsTrim dx.toStr,
      (castGet env .string req.body "status").getD "pending",
      (castGet env .string req.body "priority").getD "medium",
      castGet env .date req.body "dueDate", u._id⟩,
    { db with tasks := db.tasks ++ [⟨env.newObjectId db, jsTrim tx.toStr, jsTrim dx.toStr,
      (castGet env .string req.body "status").getD "pending",
      (castGet env .string req.body "priority").getD "medium",
      castGet env .date req.body "dueDate", u._id⟩] },
    ⟨u._id, u.name, u.email⟩, rfl, rfl, rfl, ?_, ?_, ?_, ?_, ?_, ?_⟩
  · intro s hs
    simp [castGet, hs, castValue]
  · intro hs
    simp [castGet, hs]
  · intro s hs
    simp [castGet, hs, castValue]
  · intro hs
    simp [castGet, hs]
  · simp [runStages, Stage.run, hauth, validate, hpass, Handler.run, createTask,
      runChains_user, hbody, hcreate, successResponse]
  · intro req2 hu2 hp2
    have hnone : db.tasks.find? (fun x => x._id == env.newObjectId db) = none := by
      rw [List.find?_eq_none]
      intro t ht
      simpa using hnew t ht
    have hu2' : req2.user = some u.selectNoPassword := hu2
    simp [getTask, hp2, Task.findById, hid, List.find?_append, hnone, populateUser, huid,
      hfindu, hu2', User.selectNoPassword, successResponse]

/-- Witness of C15 (amended): the payload of Ann with blanks around title and
description is stored and fetched with both trimmed, the submitted priority
and the default status. -/
theorem C15_witness :
    ∃ task db' owner,
      task._id = "64a0000000000000000000ff" ∧ task.title = "Plan" ∧
      task.description = "Sprint plan" ∧ task.status = "pending" ∧ task.priority = "high" ∧
      runStages demoEnv [.protect, .rules taskValidation, .validate, .handler .createTask]
          (mkRequest (some ("Bearer jwt." ++ annId)) ""
            [("title", jstr " Plan "), ("description", jstr " Sprint plan "),
              ("priority", jstr "high")])
          demoDb =
        ⟨.responded ⟨201, true, some "Task created successfully", none,
            some (.task (some task))⟩, db',
          [.protect, .rules taskValidation, .validate, .handler .createTask]⟩ ∧
      ∀ req2 : Request, req2.user = some ann.selectNoPassword → req2.paramId = task._id →
        getTask demoEnv req2 db' = .respond ⟨200, true, some "Task retrieved successfully",
          none, some (.populated ⟨task, some owner⟩)⟩ db' := by
  obtain ⟨task, db', owner, h1, h2, h3, -, h5, h6, -, h8, h9⟩ :=
    C15_round_trip_returns_trimmed_values demoEnv
      (mkRequest (some ("Bearer jwt." ++ annId)) ""
        [("title", jstr " Plan "), ("description", jstr " Sprint plan "),
          ("priority", jstr "high")])
      { mkRequest (some ("Bearer jwt." ++ annId)) ""
          [("title", jstr " Plan "), ("description", jstr " Sprint plan "),
            ("priority", jstr "high")] with
        user := some ann.selectNoPassword }
      demoDb (.str " Plan ") (.str " Sprint plan ") (by decide) (by decide) (by decide)
      (by decide)
      (fun v hv => absurd hv (by
        rw [show (mkRequest (some ("Bearer jwt." ++ annId)) ""
          [("title", jstr " Plan "), ("description", jstr " Sprint plan "),
            ("priority", jstr "high")]).body.get "status" = none by decide]
        simp))
      (fun v hv => ⟨"high", by
        rw [show (mkRequest (some ("Bearer jwt." ++ annId)) ""
          [("title", jstr " Plan "), ("description", jstr " Sprint plan "),
            ("priority", jstr "high")]).body.get "priority" = some (jstr "high") by decide]
          at hv
        exact (Option.some.inj hv).symm⟩)
      (fun v hv => absurd hv (by
        rw [show (mkRequest (some ("Bearer jwt." ++ annId)) ""
          [("title", jstr " Plan "), ("description", jstr " Sprint plan "),
            ("priority", jstr "high")]).body.get "dueDate" = none by decide]
        simp))
      (by decide) (by decide)
  exact ⟨task, db', owner, h1.trans (by decide), h2.trans (by decide), h3.trans (by decide),
    h5 (by decide), h6 "high" (by decide), h8, h9⟩

end PrimeTrade
